import Mathlib

/-!
Verification development for the WhatsApp catalog scraper.

Shallow embedding of the algorithmic core of the repository:
* the identity resolver and snapshot builder of `scraper_json.py`
  (`url_to_id`, `get_or_create_seller`, `add_product`), and
* the reconciliation engine of `import_to_supabase.py`
  (`import_scrape_job`, `import_sellers`, `import_products`).

Modelling conventions:
* timestamps (`datetime.now(timezone.utc)`) are abstract `Nat` clock values
  supplied by the caller;
* Python `None` and JSON `null` become `Option`;
* Python dicts keyed by strings become association lists whose insertion
  keeps an existing key's position and replaces its value (the behaviour of
  a CPython dict);
* `hashlib.md5(x).hexdigest()` is a pure deterministic function of its
  input; it is represented by the fixed stand-in `md5hex` since only
  determinism and stability of the digest matter to the properties below;
* `uuid.uuid4()` draws a fresh value from a randomness source; the source
  is modelled as a counter state, distinct draws yielding distinct strings;
* the PostgreSQL transaction discipline of the importer (each function
  commits on success and rolls back on any exception) is modelled by the
  `_tx` wrappers: a step either commits its whole effect or leaves the
  store exactly as it received it.
-/

/-- The `metadata` map attached to a product by `add_product`
(scraper_json.py lines 198-203); the importer additionally reads the
optional keys `photo_count` and `scraped_at` from it with `.get`
(import_to_supabase.py lines 134-136). -/
structure Meta where
  catalogue_url : String
  seller_name : String
  seller_city : String
  seller_contact : String
  photo_count : Option Nat
  scraped_at : Option Nat
deriving DecidableEq, Repr

/-- A product record: the JSON object built by `add_product`
(scraper_json.py lines 183-206), which is also the shape of the rows of
the `products` store table written by `import_products`. -/
structure ProductRow where
  id : String
  seller_id : String
  scrape_job_id : String
  title : String
  price : String
  description : String
  images : List String
  product_link : Option String
  is_out_of_stock : Bool
  photo_count : Nat
  scraped_at : Option Nat
  last_seen_scrape_job_id : String
  is_removed : Bool
  removed_at : Option Nat
  metadata : Meta
  created_at : Nat
  updated_at : Nat
deriving DecidableEq, Repr

/-- A seller record: the dict built by `get_or_create_seller`
(scraper_json.py lines 133-142), also the shape of the `sellers` rows
upserted by `import_sellers`. -/
structure SellerRow where
  id : String
  name : String
  city : String
  contact : String
  catalogue_url : String
  created_at : Nat
  updated_at : Nat
  is_active : Bool
deriving DecidableEq, Repr

/-- A scrape-job record (scraper_json.py lines 75-87, `scrape_jobs` table
of import_to_supabase.py). The `job_metadata` JSON blob is kept opaque. -/
structure JobRow where
  id : String
  status : String
  started_at : Nat
  completed_at : Option Nat
  total_items : Nat
  total_sellers : Nat
  error_message : Option String
  job_metadata : String
deriving DecidableEq, Repr

/-- The durable store: the three tables touched by import_to_supabase.py. -/
structure Store where
  jobs : List JobRow
  sellers : List SellerRow
  products : List ProductRow
deriving DecidableEq, Repr

/-- The counts reported by `import_products` (import_to_supabase.py lines
264-268): new products inserted, existing updated, marked removed,
reactivated. -/
structure ImportCounts where
  inserted : Nat
  updated : Nat
  removed : Nat
  reactivated : Nat
deriving DecidableEq, Repr

/-- The in-memory `scrape_session` global of scraper_json.py (lines
74-90): the running job's id, the seller dict, the product list, and the
state of the randomness source consumed by `uuid.uuid4()`. -/
structure Session where
  job_id : String
  sellers : List SellerRow
  products : List ProductRow
  uuidGen : Nat
deriving DecidableEq, Repr

/-- The `product_data` dict assembled in `process_catalog_items`
(scraper_json.py lines 493-501): scraped fields plus the spread-in
`seller_data` fields. -/
structure ProductData where
  title : String
  price : String
  description : String
  photo_count : Nat
  product_link : Option String
  is_out_of_stock : Bool
  catalogue_url : String
  seller_name : String
  seller_city : String
  seller_contact : String
deriving DecidableEq, Repr

/-- Stand-in for `hashlib.md5(url.encode('utf-8')).hexdigest()`: a fixed,
pure, deterministic function of the input string.  Only determinism and
stability of the digest are relied upon in this development. -/
def md5hex (s : String) : String := "md5:" ++ s

/-- A fresh draw from the randomness source backing `uuid.uuid4()`:
distinct draws yield distinct strings. -/
def freshUuid (g : Nat) : String := "uuid-" ++ toString g

/-- scraper_json.py lines 95-99: `url_to_id(url)` returns
`str(uuid.uuid4())` when `url` is falsy (consuming a fresh draw from the
randomness source) and `hashlib.md5(url).hexdigest()` otherwise. -/
def url_to_id (url : String) (g : Nat) : String × Nat :=
  if url = "" then (freshUuid g, g + 1) else (md5hex url, g)

/-- Python truthiness filter on an optional string: `None` and `""` are
falsy, any other string is kept. -/
def truthyStr : Option String → Option String
  | some l => if l = "" then none else some l
  | none => none

/-- scraper_json.py lines 128-144: `get_or_create_seller` resolves the
seller id with `url_to_id(catalogue_url)`, returns the existing session
seller when that id is present, and otherwise appends a fresh seller. -/
def get_or_create_seller (sess : Session) (name city contact catalogue_url : String)
    (now : Nat) : SellerRow × Session :=
  let r := url_to_id catalogue_url sess.uuidGen
  match sess.sellers.find? (fun s => s.id == r.1) with
  | some s => (s, { sess with uuidGen := r.2 })
  | none =>
      let s : SellerRow :=
        { id := r.1, name := name, city := city, contact := contact,
          catalogue_url := catalogue_url, created_at := now, updated_at := now,
          is_active := true }
      (s, { sess with uuidGen := r.2, sellers := sess.sellers ++ [s] })

/-- scraper_json.py lines 150-157: the natural key `add_product` hashes —
the product link when truthy, else `f"{title}_{seller['catalogue_url']}"`. -/
def productKey (seller : SellerRow) (d : ProductData) : String :=
  match truthyStr d.product_link with
  | some url => url
  | none => d.title ++ "_" ++ seller.catalogue_url

/-- The product id `add_product` resolves: `url_to_id` of `productKey`. -/
def resolveProductId (seller : SellerRow) (d : ProductData) (g : Nat) : String × Nat :=
  url_to_id (productKey seller d) g

/-- scraper_json.py lines 166-180: the in-place merge performed by
`add_product` on a product already present in the session.  `images`,
`scraped_at`, `metadata`, `seller_id`, `scrape_job_id`, `created_at` and
`id` are not touched; `product_link` is overwritten only when the new
observation carries a truthy link. -/
def mergeProduct (e : ProductRow) (d : ProductData) (jobId : String) (now : Nat) :
    ProductRow :=
  { e with
    last_seen_scrape_job_id := jobId
    updated_at := now
    is_removed := false
    removed_at := none
    title := d.title
    price := d.price
    description := d.description
    is_out_of_stock := d.is_out_of_stock
    photo_count := d.photo_count
    product_link :=
      match truthyStr d.product_link with
      | some _ => d.product_link
      | none => e.product_link }

/-- scraper_json.py lines 181-209: the fresh product appended by
`add_product` when the resolved id is absent from the session. -/
def newProduct (pid : String) (seller : SellerRow) (d : ProductData)
    (jobId : String) (now : Nat) : ProductRow :=
  { id := pid, seller_id := seller.id, scrape_job_id := jobId,
    title := d.title, price := d.price, description := d.description,
    images := [], product_link := d.product_link,
    is_out_of_stock := d.is_out_of_stock, photo_count := d.photo_count,
    scraped_at := some now, last_seen_scrape_job_id := jobId,
    is_removed := false, removed_at := none,
    metadata :=
      { catalogue_url := d.catalogue_url, seller_name := d.seller_name,
        seller_city := d.seller_city, seller_contact := d.seller_contact,
        photo_count := none, scraped_at := none },
    created_at := now, updated_at := now }

/-- Replace the first element of the list whose id matches `pid` by its
image under `f`; the loop of scraper_json.py lines 160-164 finds exactly
this element and mutates it in place. -/
def updateFirst : List ProductRow → String → (ProductRow → ProductRow) → List ProductRow
  | [], _, _ => []
  | p :: rest, pid, f =>
      if p.id == pid then f p :: rest else p :: updateFirst rest pid f

/-- scraper_json.py lines 146-209: `add_product` resolves the product id,
merges into the first session product carrying that id if one exists, and
otherwise appends a fresh product.  Returns the (merged or fresh) record
together with the new session. -/
def add_product (sess : Session) (seller : SellerRow) (d : ProductData)
    (now : Nat) : ProductRow × Session :=
  let r := resolveProductId seller d sess.uuidGen
  let pid := r.1
  match sess.products.find? (fun p => p.id == pid) with
  | some e =>
      (mergeProduct e d sess.job_id now,
       { sess with uuidGen := r.2,
                   products := updateFirst sess.products pid
                     (fun e0 => mergeProduct e0 d sess.job_id now) })
  | none =>
      let p := newProduct pid seller d sess.job_id now
      (p, { sess with uuidGen := r.2, products := sess.products ++ [p] })

/-- The truthy product link of an incoming product row, as tested by
`p.get('product_link')` in import_to_supabase.py lines 140-141. -/
def truthyLink (p : ProductRow) : Option String := truthyStr p.product_link

/-- import_to_supabase.py lines 131-137: before any partitioning every
incoming product gets `photo_count` and `scraped_at` from its metadata map
and `last_seen_scrape_job_id` set to the current job id. -/
def preprocess (jobId : String) (p : ProductRow) : ProductRow :=
  { p with
    photo_count := p.metadata.photo_count.getD 0
    scraped_at := p.metadata.scraped_at
    last_seen_scrape_job_id := jobId }

/-- CPython dict assignment `m[k] = v` on an association list: an existing
key keeps its position and gets the new value, a fresh key is appended. -/
def dictUpd {α : Type} : List (String × α) → String → α → List (String × α)
  | [], k, v => [(k, v)]
  | (k', v') :: rest, k, v =>
      if k' = k then (k, v) :: rest else (k', v') :: dictUpd rest k v

/-- Dict lookup on an association list (first binding of the key). -/
def lookupKey {α : Type} (m : List (String × α)) (k : String) : Option α :=
  (m.find? (fun e => e.1 == k)).map (fun e => e.2)

/-- import_to_supabase.py line 144: the dict comprehension
`{p['product_link']: p for p in products_with_link}` — successive dict
assignments keyed by the (truthy) product link. -/
def buildLinkMap (ps : List ProductRow) : List (String × ProductRow) :=
  ps.foldl
    (fun m p =>
      match truthyLink p with
      | some l => dictUpd m l p
      | none => m)
    []

/-- import_to_supabase.py lines 148-153: the
`SELECT product_link, id FROM products WHERE product_link IN links` result
folded into the dict `{row['product_link']: row['id']}` — for each queried
link the id of the matching store row (the last one in cursor order when
several share a link). -/
def existingIdMap (rows : List ProductRow) (links : List String) :
    List (String × String) :=
  rows.foldl
    (fun m r =>
      match r.product_link with
      | some l => if l ∈ links then dictUpd m l r.id else m
      | none => m)
    []

/-- import_to_supabase.py lines 155-165: walk the de-duplicated linked
products; a product whose link is a key of the existing-id map goes to the
update path with its `id` replaced by the store's id, the rest go to the
insert path. Returns `(to_insert, to_update)` in source order. -/
def splitBatch (exMap : List (String × String)) :
    List ProductRow → List ProductRow × List ProductRow
  | [] => ([], [])
  | p :: rest =>
      let r := splitBatch exMap rest
      match p.product_link with
      | some l =>
          match lookupKey exMap l with
          | some i => (r.1, { p with id := i } :: r.2)
          | none => (p :: r.1, r.2)
      | none => (p :: r.1, r.2)

/-- import_to_supabase.py lines 192-226: the bulk `UPDATE ... FROM (VALUES
...)` applied to one matched row — exactly the fields listed in the SET
clause are rewritten; `id`, `product_link` and `created_at` are not. -/
def applyUpdate (r u : ProductRow) : ProductRow :=
  { r with
    title := u.title
    price := u.price
    description := u.description
    images := u.images
    is_out_of_stock := u.is_out_of_stock
    metadata := u.metadata
    photo_count := u.photo_count
    scraped_at := u.scraped_at
    last_seen_scrape_job_id := u.last_seen_scrape_job_id
    is_removed := u.is_removed
    removed_at := u.removed_at
    updated_at := u.updated_at
    scrape_job_id := u.scrape_job_id
    seller_id := u.seller_id }

/-- The bulk update statement over the whole table: every row whose id
matches an update-batch entry (`WHERE p.id = data.id`) is rewritten. -/
def applyUpdates (toUpd : List ProductRow) (rows : List ProductRow) :
    List ProductRow :=
  rows.map fun r =>
    match toUpd.find? (fun u => u.id == r.id) with
    | some u => applyUpdate r u
    | none => r

/-- Modelled from the spec: the condition under which the database
function `mark_missing_products_as_removed` (called at
import_to_supabase.py lines 241-244 but not part of the repository's
source tree) marks a store product — it belongs to one of the scoped
sellers, is not already removed, and its natural key `product_link` is not
in the snapshot's set of observed links. -/
def shouldRemove (sellerIds links : List String) (r : ProductRow) : Bool :=
  decide (r.seller_id ∈ sellerIds) && !r.is_removed &&
    (match r.product_link with
     | some l => decide (l ∉ links)
     | none => true)

/-- Modelled from the spec: `mark_missing_products_as_removed(seller_ids,
job_id, links)` — every store product of a scoped seller whose link is not
among the observed links is marked `is_removed=true, removed_at=now()`
unless already removed; returns the number of products so marked. -/
def markMissingAsRemoved (rows : List ProductRow) (sellerIds : List String)
    (jobId : String) (now : Nat) (links : List String) :
    Nat × List ProductRow :=
  (rows.countP (shouldRemove sellerIds links),
   rows.map fun r =>
     if shouldRemove sellerIds links r then
       { r with is_removed := true, removed_at := some now }
     else r)

/-- Modelled from the spec: the condition under which
`mark_reappeared_products_as_active` reverts a store product — its link is
among the observed links and it was previously marked removed. -/
def shouldReactivate (links : List String) (r : ProductRow) : Bool :=
  (match r.product_link with
   | some l => decide (l ∈ links)
   | none => false) && r.is_removed

/-- Modelled from the spec: `mark_reappeared_products_as_active(job_id,
links)` (called at import_to_supabase.py lines 249-254 but not part of the
repository's source tree) — every store product whose link is among the
observed links and which was previously marked removed is reverted to
`is_removed=false, removed_at=null`; returns the number reverted. -/
def markReappearedAsActive (rows : List ProductRow) (jobId : String)
    (links : List String) : Nat × List ProductRow :=
  (rows.countP (shouldReactivate links),
   rows.map fun r =>
     if shouldReactivate links r then
       { r with is_removed := false, removed_at := none }
     else r)

/-- import_to_supabase.py lines 143-145: keep the linked products, build
the dict keyed by product link, take its values — one product per link,
the later observation winning, in first-observation key order. -/
def dedupByLink (batch1 : List ProductRow) : List ProductRow :=
  (buildLinkMap (batch1.filter fun p => (truthyLink p).isSome)).map (fun e => e.2)

/-- import_to_supabase.py line 149: the tuple of links of the
de-duplicated linked products, used to query the store. -/
def linksOf (uniq : List ProductRow) : List String :=
  uniq.filterMap fun p => p.product_link

/-- import_to_supabase.py lines 118-277, `import_products` without its
transaction wrapper: early return on an empty batch; preprocess; partition
into linked/unlinked; de-duplicate linked products by link (dict, later
observation wins); split against the store into insert and update paths;
bulk insert then bulk update; then lifecycle reconciliation scoped to the
seller ids and links derived from the incoming batch, skipped when either
set is empty.  Returns the reported counts and the new store. -/
def db_import_products (store : Store) (batch0 : List ProductRow) (now : Nat) :
    ImportCounts × Store :=
  match batch0 with
  | [] => (⟨0, 0, 0, 0⟩, store)
  | p0 :: _ =>
      let jobId := p0.scrape_job_id
      let batch := batch0.map (preprocess jobId)
      let uniq := dedupByLink batch
      let exMap := existingIdMap store.products (linksOf uniq)
      let sp := splitBatch exMap uniq
      let toInsert := sp.1 ++ batch.filter fun p => (truthyLink p).isNone
      let prods2 := applyUpdates sp.2 (store.products ++ toInsert)
      let sellerIds := batch.map fun p => p.seller_id
      let obsLinks := batch.filterMap truthyLink
      if !sellerIds.isEmpty && !obsLinks.isEmpty then
        let mm := markMissingAsRemoved prods2 sellerIds jobId now obsLinks
        let mr := markReappearedAsActive mm.2 jobId obsLinks
        (⟨toInsert.length, sp.2.length, mm.1, mr.1⟩,
         { store with products := mr.2 })
      else
        (⟨toInsert.length, sp.2.length, 0, 0⟩, { store with products := prods2 })

/-- import_to_supabase.py lines 27-69, `import_scrape_job` without its
transaction wrapper: `INSERT ... ON CONFLICT (id) DO UPDATE` — on conflict
the status, completion time, counts, error message and metadata take the
incoming values while `started_at` is kept. -/
def db_import_scrape_job (job : JobRow) (store : Store) : Store :=
  { store with
    jobs :=
      if store.jobs.any (fun j => j.id == job.id) then
        store.jobs.map fun j =>
          if j.id == job.id then
            { j with
              status := job.status
              completed_at := job.completed_at
              total_items := job.total_items
              total_sellers := job.total_sellers
              error_message := job.error_message
              job_metadata := job.job_metadata }
          else j
      else store.jobs ++ [job] }

/-- One seller upsert of import_to_supabase.py lines 77-103: `INSERT ...
ON CONFLICT (id) DO UPDATE` — on conflict every field but `created_at`
takes the incoming value. -/
def upsertSeller (store : Store) (s : SellerRow) : Store :=
  { store with
    sellers :=
      if store.sellers.any (fun t => t.id == s.id) then
        store.sellers.map fun t =>
          if t.id == s.id then
            { t with
              name := s.name
              city := s.city
              contact := s.contact
              catalogue_url := s.catalogue_url
              updated_at := s.updated_at
              is_active := s.is_active }
          else t
      else store.sellers ++ [s] }

/-- import_to_supabase.py lines 71-116, `import_sellers` without its
transaction wrapper: upsert each snapshot seller in turn. -/
def db_import_sellers (sellers : List SellerRow) (store : Store) : Store :=
  sellers.foldl upsertSeller store

/-- Which steps of one reconciliation run hit a database exception; the
Python code catches any `Exception` inside each step and rolls that step's
transaction back. -/
structure Faults where
  jobFault : Bool
  sellersFault : Bool
  productsFault : Bool
deriving DecidableEq, Repr

/-- `import_scrape_job` with its transaction discipline: on success the
step's whole effect is committed, on an exception the step rolls back and
returns `False` with the store exactly as it received it. -/
def db_import_scrape_job_tx (job : JobRow) (store : Store) (fault : Bool) :
    Bool × Store :=
  if fault then (false, store) else (true, db_import_scrape_job job store)

/-- `import_sellers` with its transaction discipline (commit on success,
rollback of this step only on an exception). -/
def db_import_sellers_tx (sellers : List SellerRow) (store : Store)
    (fault : Bool) : Bool × Store :=
  if fault then (false, store) else (true, db_import_sellers sellers store)

/-- `import_products` with its transaction discipline (commit on success,
rollback of this step only on an exception). -/
def db_import_products_tx (store : Store) (batch : List ProductRow) (now : Nat)
    (fault : Bool) : Bool × ImportCounts × Store :=
  if fault then (false, ⟨0, 0, 0, 0⟩, store)
  else
    let r := db_import_products store batch now
    (true, r.1, r.2)

/-- import_to_supabase.py lines 313-341, `main`: run the three steps in
order, each committing its own transaction, aborting at the first step
that reports failure.  The store returned at an abort retains everything
committed by the earlier steps. -/
def main_import_flow (job : JobRow) (sellers : List SellerRow)
    (products : List ProductRow) (now : Nat) (store : Store) (f : Faults) :
    Bool × Store :=
  let r1 := db_import_scrape_job_tx job store f.jobFault
  if !r1.1 then (false, r1.2)
  else
    let r2 := db_import_sellers_tx sellers r1.2 f.sellersFault
    if !r2.1 then (false, r2.2)
    else
      let r3 := db_import_products_tx r2.2 products now f.productsFault
      (r3.1, r3.2.2)

/-! ### General helper lemmas -/

theorem url_to_id_of_ne (url : String) (g : Nat) (h : url ≠ "") :
    url_to_id url g = (md5hex url, g) := by
  simp [url_to_id, h]

theorem db_import_sellers_products (sellers : List SellerRow) (store : Store) :
    (db_import_sellers sellers store).products = store.products := by
  induction sellers generalizing store with
  | nil => rfl
  | cons s rest ih => simpa [db_import_sellers, upsertSeller] using ih _

theorem db_import_sellers_jobs (sellers : List SellerRow) (store : Store) :
    (db_import_sellers sellers store).jobs = store.jobs := by
  induction sellers generalizing store with
  | nil => rfl
  | cons s rest ih => simpa [db_import_sellers, upsertSeller] using ih _

theorem mem_updateFirst {l : List ProductRow} {pid : String}
    {f : ProductRow → ProductRow} {p : ProductRow} (h : p ∈ updateFirst l pid f) :
    p ∈ l ∨ ∃ q, q ∈ l ∧ p = f q := by
  induction l with
  | nil => simpa [updateFirst] using h
  | cons a l ih =>
      by_cases ha : a.id == pid
      · simp only [updateFirst, ha, if_pos] at h
        rcases List.mem_cons.mp h with h | h
        · exact Or.inr ⟨a, List.mem_cons_self .., h⟩
        · exact Or.inl (List.mem_cons_of_mem _ h)
      · simp only [updateFirst, ha, if_neg, Bool.false_eq_true,
          not_false_iff] at h
        rcases List.mem_cons.mp h with h | h
        · exact Or.inl (h ▸ List.mem_cons_self ..)
        · rcases ih h with h | ⟨q, hq, hpq⟩
          · exact Or.inl (List.mem_cons_of_mem _ h)
          · exact Or.inr ⟨q, List.mem_cons_of_mem _ hq, hpq⟩

theorem length_updateFirst (l : List ProductRow) (pid : String)
    (f : ProductRow → ProductRow) : (updateFirst l pid f).length = l.length := by
  induction l with
  | nil => rfl
  | cons a l ih =>
      by_cases ha : a.id == pid <;> simp [updateFirst, ha, ih]

theorem countP_updateFirst (l : List ProductRow) (pid : String)
    (f : ProductRow → ProductRow) (q : ProductRow → Bool)
    (hf : ∀ x, q (f x) = q x) :
    (updateFirst l pid f).countP q = l.countP q := by
  induction l with
  | nil => rfl
  | cons a l ih =>
      by_cases ha : a.id == pid <;>
        simp [updateFirst, ha, List.countP_cons, hf, ih]

/-! ### C1 -/

/-- C1: the spec claims the id resolver is deterministic on every input,
including the degenerate (empty) natural key.  The code is deterministic
on non-empty input but returns a fresh draw from the randomness source
(`str(uuid.uuid4())`) on the empty input, so two calls on the same empty
input give different ids — contradicting the claim and the function's own
docstring ("Convert a URL to a stable ID"). -/
theorem C1_url_to_id_empty_input_not_deterministic :
    (url_to_id "x" 0).1 = (url_to_id "x" 1).1 ∧
    (url_to_id "" 0).1 ≠ (url_to_id "" 1).1 := by decide

/-! ### C4 -/

/-- C4 counterexample: a reconciliation run whose products step fails is
not rolled back as one transaction — the scrape job and the seller
committed by the two earlier steps remain in the store even though the
run reports failure. -/
theorem C4_not_one_transaction :
    main_import_flow ⟨"J", "completed", 1, some 2, 1, 1, none, "m"⟩
        [⟨"S", "n", "c", "t", "u", 1, 1, true⟩]
        [⟨"p1", "S", "J", "t", "pr", "d", [], some "pl", false, 0, none, "J",
          false, none, ⟨"cu", "sn", "sc", "ct", none, none⟩, 1, 1⟩]
        3 ⟨[], [], []⟩ ⟨false, false, true⟩ =
      (false,
       ⟨[⟨"J", "completed", 1, some 2, 1, 1, none, "m"⟩],
        [⟨"S", "n", "c", "t", "u", 1, 1, true⟩], []⟩) := by decide

/-- C4 amended: each of the three steps (scrape job, sellers,
products + lifecycle) runs in its own transaction.  A failing step leaves
the store exactly as the preceding steps committed it: a sellers-step
failure keeps the job upsert but leaves sellers and products untouched,
and a products-step failure keeps the job and seller upserts but leaves
the products table untouched. -/
theorem C4_per_step_transactions (job : JobRow) (sellers : List SellerRow)
    (products : List ProductRow) (now : Nat) (store : Store) :
    (main_import_flow job sellers products now store ⟨false, true, false⟩ =
        (false, db_import_scrape_job job store) ∧
      (db_import_scrape_job job store).sellers = store.sellers ∧
      (db_import_scrape_job job store).products = store.products) ∧
    (main_import_flow job sellers products now store ⟨false, false, true⟩ =
        (false, db_import_sellers sellers (db_import_scrape_job job store)) ∧
      (db_import_sellers sellers (db_import_scrape_job job store)).products =
        store.products) := by
  refine ⟨⟨?_, rfl, rfl⟩, ⟨?_, ?_⟩⟩
  · simp [main_import_flow, db_import_scrape_job_tx, db_import_sellers_tx]
  · simp [main_import_flow, db_import_scrape_job_tx, db_import_sellers_tx,
      db_import_products_tx]
  · rw [db_import_sellers_products]; rfl

/-! ### C8 -/

/-- C8 counterexample: with the degenerate (empty) catalogue URL,
`get_or_create_seller` is not an idempotent get-or-create — a repeat call
with the same catalogue URL in the same run draws a new random id, appends
a second seller, and returns a different record than the first call. -/
theorem C8_empty_url_duplicate_sellers :
    ((get_or_create_seller
        (get_or_create_seller ⟨"job", [], [], 0⟩ "n" "c" "t" "" 5).2
        "n" "c" "t" "" 6).1).id ≠
      ((get_or_create_seller ⟨"job", [], [], 0⟩ "n" "c" "t" "" 5).1).id ∧
    ((get_or_create_seller
        (get_or_create_seller ⟨"job", [], [], 0⟩ "n" "c" "t" "" 5).2
        "n" "c" "t" "" 6).2).sellers.length = 2 := by decide

/-- C8 amended: for every non-empty catalogue URL, `get_or_create_seller`
is an idempotent get-or-create — the first call inserts the seller if its
id is absent, and a repeat call with the same catalogue URL in the same
run returns the canonical in-session seller and changes nothing at all on
the session (in particular nothing on the seller). -/
theorem C8_get_or_create_idempotent (sess : Session)
    (name city contact url name' city' contact' : String) (now now' : Nat)
    (h : url ≠ "") :
    (sess.sellers.find? (fun s => s.id == md5hex url) = none →
      ((get_or_create_seller sess name city contact url now).2).sellers =
        sess.sellers ++ [⟨md5hex url, name, city, contact, url, now, now, true⟩]) ∧
    (get_or_create_seller (get_or_create_seller sess name city contact url now).2
        name' city' contact' url now').1 =
      (get_or_create_seller sess name city contact url now).1 ∧
    (get_or_create_seller (get_or_create_seller sess name city contact url now).2
        name' city' contact' url now').2 =
      (get_or_create_seller sess name city contact url now).2 := by
  have hu : ∀ g : Nat, url_to_id url g = (md5hex url, g) := fun g =>
    url_to_id_of_ne url g h
  rcases hfind : sess.sellers.find? (fun s => s.id == md5hex url) with _ | s
  · -- absent: the first call appends, the second finds the appended seller
    refine ⟨fun _ => ?_, ?_, ?_⟩ <;>
      simp [get_or_create_seller, hu, hfind, List.find?_append]
  · -- present: both calls return the existing seller, session unchanged
    refine ⟨fun hnone => ?_, ?_, ?_⟩
    · rw [hfind] at hnone; cases hnone
    all_goals simp [get_or_create_seller, hu, hfind]

/-- Witness for C8: a concrete session exercising the amended theorem at
url `"u"`. -/
theorem C8_witness :
    (get_or_create_seller
        (get_or_create_seller ⟨"j", [], [], 0⟩ "n" "c" "t" "u" 1).2
        "n2" "c2" "t2" "u" 2).2 =
      (get_or_create_seller ⟨"j", [], [], 0⟩ "n" "c" "t" "u" 1).2 :=
  (C8_get_or_create_idempotent ⟨"j", [], [], 0⟩ "n" "c" "t" "u" "n2" "c2" "t2"
    1 2 (by decide)).2.2

/-! ### C9 -/

/-- C9: the snapshot builder preserves the removal-state invariant — if
every session product has `is_removed=false` and `removed_at=null`, then
after `add_product` (both the merge path and the create path) every
session product, and the returned record, again has `is_removed=false`
and `removed_at=null`, and `get_or_create_seller` never touches the
products list. -/
theorem C9_removal_state_invariant (sess : Session) (seller : SellerRow)
    (d : ProductData) (now : Nat) (name city contact url : String) (now' : Nat)
    (h : ∀ p ∈ sess.products, p.is_removed = false ∧ p.removed_at = none) :
    (∀ p ∈ (add_product sess seller d now).2.products,
        p.is_removed = false ∧ p.removed_at = none) ∧
    ((add_product sess seller d now).1.is_removed = false ∧
      (add_product sess seller d now).1.removed_at = none) ∧
    (get_or_create_seller sess name city contact url now').2.products =
      sess.products := by
  refine ⟨?_, ?_, ?_⟩
  · intro p hp
    rcases hfind : sess.products.find? (fun q =>
        q.id == (resolveProductId seller d sess.uuidGen).1) with _ | e
    · simp only [add_product, hfind] at hp
      rcases List.mem_append.mp hp with hmem | hmem
      · exact h p hmem
      · have : p = newProduct (resolveProductId seller d sess.uuidGen).1 seller d
            sess.job_id now := by simpa using hmem
        subst this; exact ⟨rfl, rfl⟩
    · simp only [add_product, hfind] at hp
      rcases mem_updateFirst hp with hmem | ⟨q, _, hpq⟩
      · exact h p hmem
      · subst hpq; exact ⟨rfl, rfl⟩
  · rcases hfind : sess.products.find? (fun q =>
        q.id == (resolveProductId seller d sess.uuidGen).1) with _ | e <;>
      simp [add_product, hfind, mergeProduct, newProduct]
  · rcases hfind : sess.sellers.find? (fun s =>
        s.id == (url_to_id url sess.uuidGen).1) with _ | s <;>
      simp [get_or_create_seller, hfind]

/-- Witness for C9: the record returned by a concrete `add_product` call
on a session already holding one active product is itself active with a
null removal time. -/
theorem C9_witness :
    (add_product
        ⟨"J", [], [⟨"p0", "S", "J", "t0", "pr", "d", [], some "pl", false, 0,
          none, "J", false, none, ⟨"cu", "sn", "sc", "ct", none, none⟩, 1, 1⟩],
          0⟩
        ⟨"S", "n", "c", "t", "u", 1, 1, true⟩
        ⟨"t1", "pr1", "d1", 2, some "pl", false, "cu", "sn", "sc", "ct"⟩
        9).1.is_removed = false ∧
    (add_product
        ⟨"J", [], [⟨"p0", "S", "J", "t0", "pr", "d", [], some "pl", false, 0,
          none, "J", false, none, ⟨"cu", "sn", "sc", "ct", none, none⟩, 1, 1⟩],
          0⟩
        ⟨"S", "n", "c", "t", "u", 1, 1, true⟩
        ⟨"t1", "pr1", "d1", 2, some "pl", false, "cu", "sn", "sc", "ct"⟩
        9).1.removed_at = none :=
  (C9_removal_state_invariant _ _ _ 9 "n" "c" "t" "u" 3
    (by intro p hp; simp at hp; subst hp; exact ⟨rfl, rfl⟩)).2.1

theorem find?_updateFirst (l : List ProductRow) (pid : String)
    (f : ProductRow → ProductRow) (e : ProductRow)
    (hl : l.find? (fun p => p.id == pid) = some e)
    (hf : (f e).id = e.id) :
    (updateFirst l pid f).find? (fun p => p.id == pid) = some (f e) := by
  induction l with
  | nil => simp at hl
  | cons a l ih =>
      cases hb : (a.id == pid) with
      | true =>
          have hae : a = e := by
            have h2 := hl
            simp only [List.find?, hb] at h2
            exact Option.some_injective _ h2
          subst hae
          have hfa : ((f a).id == pid) = true := by rw [hf]; exact hb
          simp only [updateFirst, hb, if_true, List.find?, hfa]
      | false =>
          have hl2 : l.find? (fun p => p.id == pid) = some e := by
            have h2 := hl
            simp only [List.find?, hb] at h2
            exact h2
          simp only [updateFirst, hb, Bool.false_eq_true, if_false, List.find?]
          rw [ih hl2]

/-! ### C2 -/

/-- C2: within-run dedup of `add_product`.  Merge path: when the session
already holds exactly one product with the resolved id, the call keeps
exactly one record with that id — the first (unique) match, overwritten
with the later observation's title, price, description, stock flag,
photo count, and product link when the new observation carries a truthy
one, while the existing `images` and `created_at` are left unchanged and
`last_seen_scrape_job_id` is set to the current job id.  Create path:
when the id is absent, a fresh product with `is_removed=false`,
`removed_at=null`, `last_seen_scrape_job_id` = current job id is
appended. -/
theorem C2_observe_product (sess : Session) (seller : SellerRow)
    (d : ProductData) (now : Nat) :
    (∀ e : ProductRow,
      sess.products.find?
          (fun p => p.id == (resolveProductId seller d sess.uuidGen).1) = some e →
      sess.products.countP
          (fun p => p.id == (resolveProductId seller d sess.uuidGen).1) = 1 →
      ((add_product sess seller d now).2.products.length = sess.products.length ∧
       (add_product sess seller d now).2.products.countP
           (fun p => p.id == (resolveProductId seller d sess.uuidGen).1) = 1 ∧
       (add_product sess seller d now).2.products.find?
           (fun p => p.id == (resolveProductId seller d sess.uuidGen).1) =
         some (add_product sess seller d now).1 ∧
       (add_product sess seller d now).1.title = d.title ∧
       (add_product sess seller d now).1.price = d.price ∧
       (add_product sess seller d now).1.description = d.description ∧
       (add_product sess seller d now).1.is_out_of_stock = d.is_out_of_stock ∧
       (add_product sess seller d now).1.photo_count = d.photo_count ∧
       ((truthyStr d.product_link).isSome →
         (add_product sess seller d now).1.product_link = d.product_link) ∧
       (truthyStr d.product_link = none →
         (add_product sess seller d now).1.product_link = e.product_link) ∧
       (add_product sess seller d now).1.images = e.images ∧
       (add_product sess seller d now).1.created_at = e.created_at ∧
       (add_product sess seller d now).1.last_seen_scrape_job_id = sess.job_id ∧
       (add_product sess seller d now).1.updated_at = now ∧
       (add_product sess seller d now).1.is_removed = false ∧
       (add_product sess seller d now).1.removed_at = none)) ∧
    (sess.products.find?
        (fun p => p.id == (resolveProductId seller d sess.uuidGen).1) = none →
      ((add_product sess seller d now).2.products =
         sess.products ++
           [newProduct (resolveProductId seller d sess.uuidGen).1 seller d
             sess.job_id now] ∧
       (add_product sess seller d now).1 =
         newProduct (resolveProductId seller d sess.uuidGen).1 seller d
           sess.job_id now ∧
       (add_product sess seller d now).1.is_removed = false ∧
       (add_product sess seller d now).1.removed_at = none ∧
       (add_product sess seller d now).1.last_seen_scrape_job_id = sess.job_id)) := by
  constructor
  · intro e hfind hone
    have hid : ∀ x : ProductRow,
        (mergeProduct x d sess.job_id now).id = x.id := fun _ => rfl
    have hres : add_product sess seller d now =
        (mergeProduct e d sess.job_id now,
         { sess with
            uuidGen := (resolveProductId seller d sess.uuidGen).2,
            products := updateFirst sess.products
              (resolveProductId seller d sess.uuidGen).1
              (fun e0 => mergeProduct e0 d sess.job_id now) }) := by
      simp [add_product, hfind]
    rw [hres]
    refine ⟨length_updateFirst .., ?_, ?_, rfl, rfl, rfl, rfl, rfl, ?_, ?_,
      rfl, rfl, rfl, rfl, rfl, rfl⟩
    · rw [countP_updateFirst]
      · exact hone
      · intro x; simp [hid x]
    · exact find?_updateFirst _ _ _ e hfind (hid e)
    · intro hsome
      rcases ht : truthyStr d.product_link with _ | l
      · rw [ht] at hsome; simp at hsome
      · simp [mergeProduct, ht]
    · intro hnone
      simp [mergeProduct, hnone]
  · intro hfind
    have hres : add_product sess seller d now =
        (newProduct (resolveProductId seller d sess.uuidGen).1 seller d
          sess.job_id now,
         { sess with
            uuidGen := (resolveProductId seller d sess.uuidGen).2,
            products := sess.products ++
              [newProduct (resolveProductId seller d sess.uuidGen).1 seller d
                sess.job_id now] }) := by
      simp [add_product, hfind]
    rw [hres]
    exact ⟨rfl, rfl, rfl, rfl, rfl⟩

/-- Witness for C2: a concrete session holding exactly one product with
the resolved id; the repeat observation keeps exactly one record with
that id, namely the merged one. -/
theorem C2_witness :
    (add_product
        ⟨"J", [],
         [⟨"md5:pl", "S", "J", "t0", "p0", "d0", ["img"], some "pl", false, 0,
           none, "J0", false, none, ⟨"cu", "sn", "sc", "ct", none, none⟩, 1, 1⟩],
         0⟩
        ⟨"S", "n", "c", "t", "u", 1, 1, true⟩
        ⟨"t1", "p1", "d1", 2, some "pl", false, "cu", "sn", "sc", "ct"⟩
        9).2.products.find?
        (fun p => p.id ==
          (resolveProductId ⟨"S", "n", "c", "t", "u", 1, 1, true⟩
            ⟨"t1", "p1", "d1", 2, some "pl", false, "cu", "sn", "sc", "ct"⟩
            (⟨"J", [],
              [⟨"md5:pl", "S", "J", "t0", "p0", "d0", ["img"], some "pl", false,
                0, none, "J0", false, none, ⟨"cu", "sn", "sc", "ct", none, none⟩,
                1, 1⟩],
              0⟩ : Session).uuidGen).1) =
      some (add_product
        ⟨"J", [],
         [⟨"md5:pl", "S", "J", "t0", "p0", "d0", ["img"], some "pl", false, 0,
           none, "J0", false, none, ⟨"cu", "sn", "sc", "ct", none, none⟩, 1, 1⟩],
         0⟩
        ⟨"S", "n", "c", "t", "u", 1, 1, true⟩
        ⟨"t1", "p1", "d1", 2, some "pl", false, "cu", "sn", "sc", "ct"⟩
        9).1 :=
  ((C2_observe_product _ _ _ 9).1
    (⟨"md5:pl", "S", "J", "t0", "p0", "d0", ["img"], some "pl", false, 0,
      none, "J0", false, none, ⟨"cu", "sn", "sc", "ct", none, none⟩, 1, 1⟩ :
      ProductRow)
    (by decide) (by decide)).2.2.1

theorem truthyLink_preprocess (j : String) (p : ProductRow) :
    truthyLink (preprocess j p) = truthyLink p := rfl

theorem applyUpdates_nil (rows : List ProductRow) :
    applyUpdates [] rows = rows := by
  simp [applyUpdates, List.find?]

/-! ### C10 -/

/-- C10: on a batch with no truthy product link the importer performs no
lifecycle transition — the mark-removed and mark-reappeared calls are
skipped, their counts are zero, the store's pre-existing product rows (and
the seller and job tables) are untouched, and the call reports success;
on the empty batch it returns success before any store mutation at all. -/
theorem C10_no_lifecycle_without_links (store : Store)
    (batch : List ProductRow) (now : Nat)
    (h : ∀ p ∈ batch, truthyLink p = none) :
    (batch = [] → db_import_products store batch now = (⟨0, 0, 0, 0⟩, store)) ∧
    (∀ p0 rest, batch = p0 :: rest →
      ((db_import_products store batch now).1.removed = 0 ∧
       (db_import_products store batch now).1.reactivated = 0 ∧
       (db_import_products store batch now).2.products =
         store.products ++ batch.map (preprocess p0.scrape_job_id) ∧
       (db_import_products store batch now).2.jobs = store.jobs ∧
       (db_import_products store batch now).2.sellers = store.sellers)) ∧
    (db_import_products_tx store batch now false).1 = true := by
  refine ⟨fun hnil => by rw [hnil]; rfl, ?_, by simp [db_import_products_tx]⟩
  intro p0 rest hcons
  subst hcons
  have hall : ∀ p ∈ (p0 :: rest).map (preprocess p0.scrape_job_id),
      truthyLink p = none := by
    intro p hp
    rcases List.mem_map.mp hp with ⟨q, hq, rfl⟩
    rw [truthyLink_preprocess]
    exact h q hq
  have hfilter1 : ((p0 :: rest).map (preprocess p0.scrape_job_id)).filter
      (fun p => (truthyLink p).isSome) = [] := by
    rw [List.filter_eq_nil_iff]
    intro a ha
    simp [hall a ha]
  have hfilter2 : ((p0 :: rest).map (preprocess p0.scrape_job_id)).filter
      (fun p => (truthyLink p).isNone) =
      (p0 :: rest).map (preprocess p0.scrape_job_id) := by
    rw [List.filter_eq_self]
    intro a ha
    simp [hall a ha]
  have hfm : ((p0 :: rest).map (preprocess p0.scrape_job_id)).filterMap
      truthyLink = [] := List.filterMap_eq_nil_iff.mpr hall
  simp only [db_import_products, dedupByLink, linksOf, hfilter1, hfilter2,
    hfm, buildLinkMap, List.foldl_nil, List.map_nil, List.filterMap_nil,
    splitBatch, List.nil_append, applyUpdates_nil, List.isEmpty_nil,
    Bool.not_true, Bool.and_false, Bool.false_eq_true, if_false]
  exact ⟨trivial, trivial, trivial, trivial, trivial⟩

/-- Witness for C10: a concrete two-product batch with no truthy links
(one `None` link, one empty-string link) against a concrete store. -/
theorem C10_witness :
    (db_import_products
        ⟨[], [],
         [⟨"A", "S", "J0", "tA", "p", "d", [], some "pa", false, 0, none, "J0",
           false, none, ⟨"cu", "sn", "sc", "ct", none, none⟩, 1, 1⟩]⟩
        [⟨"u1", "S", "J", "t1", "p", "d", [], none, false, 0, none, "J", false,
          none, ⟨"cu", "sn", "sc", "ct", none, none⟩, 1, 1⟩,
         ⟨"u2", "S", "J", "t2", "p", "d", [], some "", false, 0, none, "J",
          false, none, ⟨"cu", "sn", "sc", "ct", none, none⟩, 1, 1⟩]
        4).1.removed = 0 :=
  (((C10_no_lifecycle_without_links _ _ 4 (by decide)).2.1) _ _ rfl).1

theorem applyUpdates_row_frame (toUpd : List ProductRow) (r : ProductRow) :
    ((match toUpd.find? (fun u => u.id == r.id) with
      | some u => applyUpdate r u
      | none => r) : ProductRow).created_at = r.created_at ∧
    ((match toUpd.find? (fun u => u.id == r.id) with
      | some u => applyUpdate r u
      | none => r) : ProductRow).id = r.id ∧
    ((match toUpd.find? (fun u => u.id == r.id) with
      | some u => applyUpdate r u
      | none => r) : ProductRow).product_link = r.product_link := by
  cases toUpd.find? (fun u => u.id == r.id) <;> exact ⟨rfl, rfl, rfl⟩

theorem removeRow_frame (sellerIds links : List String) (now : Nat)
    (r : ProductRow) :
    ((if shouldRemove sellerIds links r then
        { r with is_removed := true, removed_at := some now }
      else r) : ProductRow).created_at = r.created_at ∧
    ((if shouldRemove sellerIds links r then
        { r with is_removed := true, removed_at := some now }
      else r) : ProductRow).id = r.id ∧
    ((if shouldRemove sellerIds links r then
        { r with is_removed := true, removed_at := some now }
      else r) : ProductRow).product_link = r.product_link := by
  split <;> exact ⟨rfl, rfl, rfl⟩

theorem reactivateRow_frame (links : List String) (r : ProductRow) :
    ((if shouldReactivate links r then
        { r with is_removed := false, removed_at := none }
      else r) : ProductRow).created_at = r.created_at ∧
    ((if shouldReactivate links r then
        { r with is_removed := false, removed_at := none }
      else r) : ProductRow).id = r.id ∧
    ((if shouldReactivate links r then
        { r with is_removed := false, removed_at := none }
      else r) : ProductRow).product_link = r.product_link := by
  split <;> exact ⟨rfl, rfl, rfl⟩

/-! ### C7 -/

/-- C7: the update path preserves row identity and creation time.  The
bulk update rewrites exactly title, price, description, images,
is_out_of_stock, metadata, photo_count, scraped_at,
last_seen_scrape_job_id, is_removed, removed_at, updated_at,
scrape_job_id and seller_id (first conjunct: `applyUpdate r u` equals `u`
with `id`, `product_link` and `created_at` taken from the stored row `r`),
and consequently every pre-existing store row keeps its `created_at`, its
`id` (and its `product_link`) through a whole `import_products` run. -/
theorem C7_update_preserves_created_at (store : Store)
    (batch : List ProductRow) (now : Nat) (i : Nat)
    (hi : i < store.products.length) :
    (∀ r u : ProductRow, applyUpdate r u =
      { u with id := r.id, product_link := r.product_link,
               created_at := r.created_at }) ∧
    ∃ r', (db_import_products store batch now).2.products[i]? = some r' ∧
      r'.created_at = store.products[i].created_at ∧
      r'.id = store.products[i].id ∧
      r'.product_link = store.products[i].product_link := by
  refine ⟨fun r u => rfl, ?_⟩
  cases batch with
  | nil =>
      exact ⟨store.products[i],
        by simp [db_import_products, List.getElem?_eq_getElem hi], rfl, rfl, rfl⟩
  | cons p0 rest =>
      simp only [db_import_products]
      split
      · simp only [markMissingAsRemoved, markReappearedAsActive, applyUpdates]
        rw [List.getElem?_map, List.getElem?_map, List.getElem?_map,
          List.getElem?_append_left hi, List.getElem?_eq_getElem hi]
        simp only [Option.map_some']
        refine ⟨_, rfl, ?_, ?_, ?_⟩
        · rw [(reactivateRow_frame _ _).1, (removeRow_frame _ _ _ _).1,
            (applyUpdates_row_frame _ _).1]
        · rw [(reactivateRow_frame _ _).2.1, (removeRow_frame _ _ _ _).2.1,
            (applyUpdates_row_frame _ _).2.1]
        · rw [(reactivateRow_frame _ _).2.2, (removeRow_frame _ _ _ _).2.2,
            (applyUpdates_row_frame _ _).2.2]
      · simp only [applyUpdates]
        rw [List.getElem?_map, List.getElem?_append_left hi,
          List.getElem?_eq_getElem hi]
        simp only [Option.map_some']
        exact ⟨_, rfl, (applyUpdates_row_frame _ _).1,
          (applyUpdates_row_frame _ _).2.1, (applyUpdates_row_frame _ _).2.2⟩

/-- Witness for C7: a concrete store row that is hit by the update path
(same link in the incoming batch) keeps its original `created_at`, `id`
and `product_link`. -/
theorem C7_witness :
    ∃ r', (db_import_products
        ⟨[], [],
         [⟨"A", "S", "J0", "tA", "p", "d", [], some "pa", false, 0, none, "J0",
           false, none, ⟨"cu", "sn", "sc", "ct", none, none⟩, 1, 1⟩]⟩
        [⟨"B", "S", "J", "tB", "p2", "d2", [], some "pa", false, 0, none, "J",
          false, none, ⟨"cu", "sn", "sc", "ct", none, none⟩, 7, 7⟩]
        9).2.products[0]? = some r' ∧
      r'.created_at = (⟨[], [],
         [⟨"A", "S", "J0", "tA", "p", "d", [], some "pa", false, 0, none, "J0",
           false, none, ⟨"cu", "sn", "sc", "ct", none, none⟩, 1, 1⟩]⟩ :
           Store).products[0].created_at ∧
      r'.id = (⟨[], [],
         [⟨"A", "S", "J0", "tA", "p", "d", [], some "pa", false, 0, none, "J0",
           false, none, ⟨"cu", "sn", "sc", "ct", none, none⟩, 1, 1⟩]⟩ :
           Store).products[0].id ∧
      r'.product_link = (⟨[], [],
         [⟨"A", "S", "J0", "tA", "p", "d", [], some "pa", false, 0, none, "J0",
           false, none, ⟨"cu", "sn", "sc", "ct", none, none⟩, 1, 1⟩]⟩ :
           Store).products[0].product_link :=
  (C7_update_preserves_created_at _ _ 9 0 (by decide)).2

/-! ### Association-list (CPython dict) lemmas -/

theorem beqFalseOfNe {a b : String} (h : ¬a = b) : (a == b) = false :=
  beq_eq_false_iff_ne.mpr h

theorem lookupKey_dictUpd {α : Type} (m : List (String × α)) (k x : String)
    (v : α) :
    lookupKey (dictUpd m k v) x = if x = k then some v else lookupKey m x := by
  induction m with
  | nil =>
      by_cases h : x = k
      · subst h; simp [dictUpd, lookupKey, List.find?]
      · simp [dictUpd, lookupKey, List.find?,
          beqFalseOfNe (fun hk => h hk.symm), h]
  | cons e m ih =>
      obtain ⟨k', v'⟩ := e
      by_cases hk : k' = k
      · subst hk
        by_cases hx : x = k'
        · subst hx; simp [dictUpd, lookupKey, List.find?]
        · simp [dictUpd, lookupKey, List.find?,
            beqFalseOfNe (fun hk2 => hx hk2.symm), hx]
      · by_cases hx : x = k'
        · subst hx
          simp [dictUpd, if_neg hk, lookupKey, List.find?, if_neg hk]
        · simp only [dictUpd, if_neg hk, lookupKey, List.find?,
            beqFalseOfNe (fun hk2 => hx hk2.symm)]
          have ih2 := ih
          simp only [lookupKey] at ih2
          rw [ih2]

theorem mem_values_dictUpd {α : Type} {k : String} {v x : α} :
    ∀ {m : List (String × α)}, x ∈ (dictUpd m k v).map (fun e => e.2) →
      x ∈ m.map (fun e => e.2) ∨ x = v := by
  intro m
  induction m with
  | nil =>
      intro h
      right
      simpa [dictUpd] using h
  | cons e m ih =>
      obtain ⟨k', v'⟩ := e
      intro h
      by_cases hk : k' = k
      · subst hk
        simp only [dictUpd, eq_self_iff_true, if_true, List.map_cons,
          List.mem_cons] at h
        rcases h with h | h
        · exact Or.inr h
        · exact Or.inl (by simp only [List.map_cons, List.mem_cons]; exact Or.inr h)
      · simp only [dictUpd, if_neg hk, List.map_cons, List.mem_cons] at h
        rcases h with h | h
        · exact Or.inl (by simp only [List.map_cons, List.mem_cons]; exact Or.inl h)
        · rcases ih h with h2 | h2
          · exact Or.inl (by simp only [List.map_cons, List.mem_cons]; exact Or.inr h2)
          · exact Or.inr h2

theorem mem_buildLinkFold {p : ProductRow} :
    ∀ {ps : List ProductRow} {m : List (String × ProductRow)},
      p ∈ (ps.foldl
        (fun m q =>
          match truthyLink q with
          | some l => dictUpd m l q
          | none => m) m).map (fun e => e.2) →
      p ∈ m.map (fun e => e.2) ∨ p ∈ ps := by
  intro ps
  induction ps with
  | nil => intro m h; exact Or.inl h
  | cons q ps ih =>
      intro m h
      rw [List.foldl_cons] at h
      rcases ih h with hm | hp
      · cases hq : truthyLink q with
        | some l =>
            simp only [hq] at hm
            rcases mem_values_dictUpd hm with h1 | h1
            · exact Or.inl h1
            · right; rw [h1]; exact List.mem_cons_self ..
        | none =>
            simp only [hq] at hm
            exact Or.inl hm
      · exact Or.inr (List.mem_cons_of_mem _ hp)

theorem mem_dedupByLink {batch1 : List ProductRow} {p : ProductRow}
    (h : p ∈ dedupByLink batch1) : p ∈ batch1 ∧ (truthyLink p).isSome := by
  have h2 : p ∈ ([] : List (String × ProductRow)).map (fun e => e.2) ∨
      p ∈ batch1.filter fun q => (truthyLink q).isSome :=
    mem_buildLinkFold h
  rcases h2 with h2 | h2
  · simp at h2
  · exact List.mem_filter.mp h2

theorem existingIdMap_lookup_aux (links : List String) (l j : String) :
    ∀ (rows : List ProductRow) (m : List (String × String)),
      lookupKey (rows.foldl
        (fun m r =>
          match r.product_link with
          | some l' => if l' ∈ links then dictUpd m l' r.id else m
          | none => m) m) l = some j →
      (∃ row, row ∈ rows ∧ row.product_link = some l ∧ row.id = j ∧ l ∈ links) ∨
        lookupKey m l = some j := by
  intro rows
  induction rows with
  | nil => intro m h; exact Or.inr h
  | cons r rows ih =>
      intro m h
      rw [List.foldl_cons] at h
      rcases ih _ h with h1 | h1
      · rcases h1 with ⟨row, hmem, hl, hid, hlk⟩
        exact Or.inl ⟨row, List.mem_cons_of_mem _ hmem, hl, hid, hlk⟩
      · cases hq : r.product_link with
        | some l' =>
            simp only [hq] at h1
            by_cases hin : l' ∈ links
            · rw [if_pos hin, lookupKey_dictUpd] at h1
              by_cases hll : l = l'
              · subst hll
                rw [if_pos rfl] at h1
                exact Or.inl ⟨r, List.mem_cons_self .., hq,
                  Option.some_injective _ h1, hin⟩
              · rw [if_neg hll] at h1
                exact Or.inr h1
            · rw [if_neg hin] at h1
              exact Or.inr h1
        | none =>
            simp only [hq] at h1
            exact Or.inr h1

theorem lookupKey_existingIdMap_some {rows : List ProductRow}
    {links : List String} {l j : String}
    (h : lookupKey (existingIdMap rows links) l = some j) :
    ∃ row, row ∈ rows ∧ row.product_link = some l ∧ row.id = j ∧ l ∈ links := by
  rcases existingIdMap_lookup_aux links l j rows [] h with h1 | h1
  · exact h1
  · simp [lookupKey, List.find?] at h1

theorem mem_splitBatch_update {exMap : List (String × String)} :
    ∀ {ps : List ProductRow} {u : ProductRow},
      u ∈ (splitBatch exMap ps).2 →
      ∃ p l, p ∈ ps ∧ p.product_link = some l ∧ lookupKey exMap l = some u.id := by
  intro ps
  induction ps with
  | nil => intro u h; simp [splitBatch] at h
  | cons p ps ih =>
      intro u h
      simp only [splitBatch] at h
      split at h
      · split at h
        · rcases List.mem_cons.mp h with h1 | h1
          · subst h1
            rename_i x1 l hq x2 i hlk
            exact ⟨p, l, List.mem_cons_self .., hq, hlk⟩
          · rcases ih h1 with ⟨p', l', hp', hl', hlk'⟩
            exact ⟨p', l', List.mem_cons_of_mem _ hp', hl', hlk'⟩
        · rcases ih h with ⟨p', l', hp', hl', hlk'⟩
          exact ⟨p', l', List.mem_cons_of_mem _ hp', hl', hlk'⟩
      · rcases ih h with ⟨p', l', hp', hl', hlk'⟩
        exact ⟨p', l', List.mem_cons_of_mem _ hp', hl', hlk'⟩

theorem sellerIds_preprocess (j : String) (batch : List ProductRow) :
    (batch.map (preprocess j)).map (fun p => p.seller_id) =
      batch.map (fun p => p.seller_id) := by
  rw [List.map_map]; rfl

theorem obsLinks_preprocess (j : String) (batch : List ProductRow) :
    (batch.map (preprocess j)).filterMap truthyLink =
      batch.filterMap truthyLink := by
  rw [List.filterMap_map]; rfl

/-! ### C5 -/

/-- C5 counterexample: a snapshot in which seller `S` was visited but
yielded an empty product list (the batch only carries a product of seller
`T`) does NOT mark seller `S`'s previously active store product as
removed — the lifecycle scope is derived from the product list's seller
ids, so `S` is out of scope and its product stays active. -/
theorem C5_empty_seller_products_not_removed :
    ((db_import_products
        ⟨[], [],
         [⟨"A", "S", "J0", "tA", "p", "d", [], some "pa", false, 0, none, "J0",
           false, none, ⟨"cu", "sn", "sc", "ct", none, none⟩, 1, 1⟩]⟩
        [⟨"B", "T", "J", "tB", "p", "d", [], some "pb", false, 0, none, "J",
          false, none, ⟨"cu", "sn", "sc", "ct", none, none⟩, 1, 1⟩]
        7).2.products.countP
      (fun r => (r.seller_id == "S") && r.is_removed)) = 0 ∧
    ((db_import_products
        ⟨[], [],
         [⟨"A", "S", "J0", "tA", "p", "d", [], some "pa", false, 0, none, "J0",
           false, none, ⟨"cu", "sn", "sc", "ct", none, none⟩, 1, 1⟩]⟩
        [⟨"B", "T", "J", "tB", "p", "d", [], some "pb", false, 0, none, "J",
          false, none, ⟨"cu", "sn", "sc", "ct", none, none⟩, 1, 1⟩]
        7).2.products.countP
      (fun r => (r.seller_id == "S") && !r.is_removed)) = 1 := by decide

/-- C5 amended: the lifecycle scope is the set of sellers owning at least
one product in the snapshot's product list (not the snapshot's seller
map).  A store row whose seller is outside that scope and whose link is
not among the batch's observed links is left entirely untouched by
`import_products` (store ids assumed unique, the products table's key
invariant); in particular a visited seller with an empty product list has
none of its previously active products marked removed. -/
theorem C5_lifecycle_scoped_to_product_sellers (store : Store)
    (batch : List ProductRow) (now : Nat) (i : Nat)
    (hi : i < store.products.length)
    (hids : (store.products.map (fun r => r.id)).Nodup)
    (hseller : store.products[i].seller_id ∉ batch.map (fun p => p.seller_id))
    (hlink : ∀ l, store.products[i].product_link = some l →
      l ∉ batch.filterMap truthyLink) :
    (db_import_products store batch now).2.products[i]? =
      some store.products[i] := by
  cases batch with
  | nil => simp [db_import_products, List.getElem?_eq_getElem hi]
  | cons p0 rest =>
      simp only [db_import_products]
      set B := List.map (preprocess p0.scrape_job_id) (p0 :: rest) with hB
      set U := dedupByLink B with hU
      set L := linksOf U with hL
      set EX := existingIdMap store.products L with hEX
      set SP := splitBatch EX U with hSP
      have hfind : SP.2.find? (fun u => u.id == store.products[i].id) = none := by
        apply List.find?_eq_none.mpr
        intro u hu
        rw [hSP] at hu
        rcases mem_splitBatch_update hu with ⟨p, l, hpU, hpl, hlk⟩
        rw [hEX] at hlk
        rcases lookupKey_existingIdMap_some hlk with
          ⟨row, hrow, hrowl, hrowid, hlL⟩
        intro hbeq
        have hueq : u.id = store.products[i].id := beq_iff_eq.mp hbeq
        have hrId : row.id = store.products[i].id := hrowid.trans hueq
        have hrowEq : row = store.products[i] :=
          List.inj_on_of_nodup_map hids hrow (List.getElem_mem hi) hrId
        have hl2 : store.products[i].product_link = some l := hrowEq ▸ hrowl
        rw [hU] at hpU
        rcases mem_dedupByLink hpU with ⟨hpB, hpt⟩
        have ht : truthyLink p = some l := by
          have h0 : truthyLink p = truthyStr p.product_link := rfl
          rw [h0, hpl] at hpt ⊢
          by_cases hle : l = ""
          · subst hle; simp [truthyStr] at hpt
          · simp [truthyStr, hle]
        have hlB : l ∈ B.filterMap truthyLink :=
          List.mem_filterMap.mpr ⟨p, hpB, ht⟩
        rw [hB, obsLinks_preprocess] at hlB
        exact hlink l hl2 hlB
      have hremove : shouldRemove (B.map (fun p => p.seller_id))
          (B.filterMap truthyLink) store.products[i] = false := by
        have hs : store.products[i].seller_id ∉ B.map (fun p => p.seller_id) := by
          rw [hB, sellerIds_preprocess]
          exact hseller
        simp [shouldRemove, hs]
      have hreact : shouldReactivate (B.filterMap truthyLink)
          store.products[i] = false := by
        cases hq : store.products[i].product_link with
        | none => simp [shouldReactivate, hq]
        | some l =>
            have hnl : l ∉ B.filterMap truthyLink := by
              rw [obsLinks_preprocess]
              exact hlink l hq
            simp [shouldReactivate, hq, hnl]
      split
      · simp only [markMissingAsRemoved, markReappearedAsActive, applyUpdates]
        rw [List.getElem?_map, List.getElem?_map, List.getElem?_map,
          List.getElem?_append_left hi, List.getElem?_eq_getElem hi]
        simp only [Option.map_some', hfind, hremove, hreact,
          Bool.false_eq_true, if_false]
      · simp only [applyUpdates]
        rw [List.getElem?_map, List.getElem?_append_left hi,
          List.getElem?_eq_getElem hi]
        simp only [Option.map_some', hfind]

/-- Witness for C5: the concrete out-of-scope store row of seller `S` is
returned unchanged by a reconciliation whose batch only mentions seller
`T`. -/
theorem C5_witness :
    (db_import_products
        ⟨[], [],
         [⟨"A", "S", "J0", "tA", "p", "d", [], some "pa", false, 0, none, "J0",
           false, none, ⟨"cu", "sn", "sc", "ct", none, none⟩, 1, 1⟩]⟩
        [⟨"B", "T", "J", "tB", "p", "d", [], some "pb", false, 0, none, "J",
          false, none, ⟨"cu", "sn", "sc", "ct", none, none⟩, 1, 1⟩]
        7).2.products[0]? =
      some (⟨[], [],
         [⟨"A", "S", "J0", "tA", "p", "d", [], some "pa", false, 0, none, "J0",
           false, none, ⟨"cu", "sn", "sc", "ct", none, none⟩, 1, 1⟩]⟩ :
        Store).products[0] :=
  C5_lifecycle_scoped_to_product_sellers _ _ 7 0 (by decide) (by decide)
    (by decide) (by intro l hl; cases hl; decide)

theorem lookupKey_buildLinkFold (l : String) :
    ∀ (ps : List ProductRow) (m : List (String × ProductRow)),
      lookupKey (ps.foldl
        (fun m q =>
          match truthyLink q with
          | some k => dictUpd m k q
          | none => m) m) l =
      (ps.reverse.find? (fun p => truthyLink p == some l)).or (lookupKey m l) := by
  intro ps
  induction ps with
  | nil => intro m; simp
  | cons q ps ih =>
      intro m
      rw [List.foldl_cons, ih, List.reverse_cons, List.find?_append,
        Option.or_assoc]
      congr 1
      cases hq : truthyLink q with
      | some k =>
          simp only [hq]
          rw [lookupKey_dictUpd]
          by_cases hlk : l = k
          · subst hlk
            simp [List.find?, hq]
          · have hb : ((some k : Option String) == some l) = false := by
              simp [beqFalseOfNe (fun h2 => hlk h2.symm)]
            simp [List.find?, hq, hb, hlk]
      | none =>
          simp only [hq]
          simp [List.find?, hq]

theorem lookupKey_buildLinkMap (ps : List ProductRow) (l : String) :
    lookupKey (buildLinkMap ps) l =
      ps.reverse.find? (fun p => truthyLink p == some l) := by
  have h := lookupKey_buildLinkFold l ps []
  simpa [lookupKey, List.find?, Option.or_none] using h

theorem buildLinkMap_filter (ps : List ProductRow) :
    buildLinkMap (ps.filter fun p => (truthyLink p).isSome) =
      buildLinkMap ps := by
  show (ps.filter fun p => (truthyLink p).isSome).foldl _ [] = ps.foldl _ []
  generalize ([] : List (String × ProductRow)) = m
  induction ps generalizing m with
  | nil => rfl
  | cons q ps ih =>
      rw [List.filter_cons]
      cases hq : truthyLink q with
      | some k =>
          simp only [hq, Option.isSome_some, if_true, List.foldl_cons]
          exact ih _
      | none =>
          simp only [hq, Option.isSome_none, Bool.false_eq_true, if_false,
            List.foldl_cons]
          exact ih _

theorem splitBatch_eq (exMap : List (String × String)) :
    ∀ ps : List ProductRow,
      splitBatch exMap ps =
        (ps.filter fun p =>
          (match p.product_link with
           | some l => (lookupKey exMap l).isNone
           | none => true : Bool),
         ps.filterMap fun p =>
          match p.product_link with
          | some l => (lookupKey exMap l).map (fun j => { p with id := j })
          | none => none) := by
  intro ps
  induction ps with
  | nil => rfl
  | cons p ps ih =>
      cases hq : p.product_link with
      | some l =>
          cases hlk : lookupKey exMap l with
          | some j =>
              simp only [splitBatch, hq, hlk, ih, List.filter_cons,
                List.filterMap_cons, Option.isNone_some, Bool.false_eq_true,
                if_false, Option.map_some']
          | none =>
              simp only [splitBatch, hq, hlk, ih, List.filter_cons,
                List.filterMap_cons, Option.isNone_none, if_true,
                Option.map_none']
      | none =>
          simp only [splitBatch, hq, ih, List.filter_cons,
            List.filterMap_cons, if_true]

/-! ### C3 -/

/-- C3: the reconciliation engine's batch partition.  (i) The link dict
built over the linked products of the batch resolves every link to the
*last* batch product carrying it (later observation wins).  (ii) The
split of the de-duplicated linked products against the store sends
exactly the products whose link has an id in the store map to the update
path — with the store's row id substituted — and the rest to the insert
path.  (iii) Every id handed to the update path is the id of an actual
store row holding that link.  (iv) Every update-path entry reuses an
existing store row's id.  (v) The unlinked products of the batch are a
suffix of the insert list — they are always treated as new inserts. -/
theorem C3_partition_dedup_split (storeRows : List ProductRow)
    (rows : List ProductRow) (l i : String) :
    (lookupKey (buildLinkMap (rows.filter fun p => (truthyLink p).isSome)) l =
      rows.reverse.find? (fun p => truthyLink p == some l)) ∧
    (splitBatch (existingIdMap storeRows (linksOf (dedupByLink rows)))
        (dedupByLink rows) =
      ((dedupByLink rows).filter fun p =>
        (match p.product_link with
         | some k =>
            (lookupKey (existingIdMap storeRows (linksOf (dedupByLink rows)))
              k).isNone
         | none => true : Bool),
       (dedupByLink rows).filterMap fun p =>
        match p.product_link with
        | some k =>
            (lookupKey (existingIdMap storeRows (linksOf (dedupByLink rows)))
              k).map (fun j => { p with id := j })
        | none => none)) ∧
    (lookupKey (existingIdMap storeRows (linksOf (dedupByLink rows))) l =
        some i →
      ∃ row, row ∈ storeRows ∧ row.product_link = some l ∧ row.id = i) ∧
    (∀ u, u ∈ (splitBatch
        (existingIdMap storeRows (linksOf (dedupByLink rows)))
        (dedupByLink rows)).2 →
      ∃ row, row ∈ storeRows ∧ row.id = u.id) ∧
    ((rows.filter fun p => (truthyLink p).isNone) <:+
      ((splitBatch (existingIdMap storeRows (linksOf (dedupByLink rows)))
          (dedupByLink rows)).1 ++
        rows.filter fun p => (truthyLink p).isNone)) := by
  refine ⟨?_, splitBatch_eq _ _, ?_, ?_, List.suffix_append _ _⟩
  · rw [buildLinkMap_filter, lookupKey_buildLinkMap]
  · intro h
    rcases lookupKey_existingIdMap_some h with ⟨row, hrow, hl, hid, hmem⟩
    exact ⟨row, hrow, hl, hid⟩
  · intro u hu
    rcases mem_splitBatch_update hu with ⟨p, k, hpU, hpl, hlk⟩
    rcases lookupKey_existingIdMap_some hlk with ⟨row, hrow, hl, hid, hmem⟩
    exact ⟨row, hrow, hid⟩

/-- Witness for C3: concrete store and batch exercising the
implication-shaped conjuncts — the update path reuses the id of the
concrete store row holding the shared link. -/
theorem C3_witness :
    ∃ row, row ∈
      [(⟨"A", "S", "J0", "tA", "p", "d", [], some "x1", false, 0, none, "J0",
        false, none, ⟨"cu", "sn", "sc", "ct", none, none⟩, 1, 1⟩ : ProductRow)] ∧
      row.product_link = some "x1" ∧ row.id = "A" :=
  (C3_partition_dedup_split
    [⟨"A", "S", "J0", "tA", "p", "d", [], some "x1", false, 0, none, "J0",
      false, none, ⟨"cu", "sn", "sc", "ct", none, none⟩, 1, 1⟩]
    [⟨"B", "S", "J", "tB", "p2", "d2", [], some "x1", false, 0, none, "J",
      false, none, ⟨"cu", "sn", "sc", "ct", none, none⟩, 2, 2⟩]
    "x1" "A").2.2.1 (by decide)

/-! ### Lemmas for the idempotence claim -/

theorem dictUpd_fresh {α : Type} :
    ∀ (m : List (String × α)) (k : String) (v : α),
      (∀ e ∈ m, e.1 ≠ k) → dictUpd m k v = m ++ [(k, v)] := by
  intro m
  induction m with
  | nil => intro k v _; rfl
  | cons e m ih =>
      intro k v h
      obtain ⟨k', v'⟩ := e
      have hk : k' ≠ k := h (k', v') (List.mem_cons_self ..)
      simp only [dictUpd, if_neg hk, List.cons_append, List.cons.injEq,
        true_and]
      exact ih k v fun e he => h e (List.mem_cons_of_mem _ he)

theorem buildLinkFold_values_eq :
    ∀ (ps : List ProductRow) (m : List (String × ProductRow)),
      (∀ p ∈ ps, (truthyLink p).isSome) →
      (ps.filterMap truthyLink).Nodup →
      (∀ p ∈ ps, ∀ l, truthyLink p = some l → ∀ e ∈ m, e.1 ≠ l) →
      (ps.foldl
        (fun m q =>
          match truthyLink q with
          | some k => dictUpd m k q
          | none => m) m).map (fun e => e.2) = m.map (fun e => e.2) ++ ps := by
  intro ps
  induction ps with
  | nil => intro m _ _ _; simp
  | cons q ps ih =>
      intro m hlinked hnodup hfresh
      rcases Option.isSome_iff_exists.mp (hlinked q (List.mem_cons_self ..)) with
        ⟨k, hk⟩
      simp only [List.foldl_cons, hk]
      have hfm : (q :: ps).filterMap truthyLink = k :: ps.filterMap truthyLink := by
        rw [List.filterMap_cons, hk]
      rw [hfm] at hnodup
      have hknotin : k ∉ ps.filterMap truthyLink := (List.nodup_cons.mp hnodup).1
      have hupd : dictUpd m k q = m ++ [(k, q)] :=
        dictUpd_fresh m k q fun e he h2 =>
          hfresh q (List.mem_cons_self ..) k hk e he h2
      rw [hupd]
      rw [ih (m ++ [(k, q)])
        (fun p hp => hlinked p (List.mem_cons_of_mem _ hp))
        (List.nodup_cons.mp hnodup).2
        ?_]
      · simp
      · intro p hp l hl e he
        rcases List.mem_append.mp he with he | he
        · exact hfresh p (List.mem_cons_of_mem _ hp) l hl e he
        · have : e = (k, q) := by simpa using he
          subst this
          intro hkl
          apply hknotin
          have hkl2 : k = l := hkl
          rw [hkl2]
          exact List.mem_filterMap.mpr ⟨p, hp, hl⟩

theorem dedupByLink_eq_self (ps : List ProductRow)
    (hlinked : ∀ p ∈ ps, (truthyLink p).isSome)
    (hnodup : (ps.filterMap truthyLink).Nodup) :
    dedupByLink ps = ps := by
  have hfilter : ps.filter (fun p => (truthyLink p).isSome) = ps :=
    List.filter_eq_self.mpr hlinked
  show (buildLinkMap (ps.filter fun p => (truthyLink p).isSome)).map _ = ps
  rw [hfilter]
  have := buildLinkFold_values_eq ps [] hlinked hnodup (by intro p _ l _ e he; simp at he)
  simpa [buildLinkMap] using this

theorem lookupKey_fold_isSome_preserved (links : List String) (l : String) :
    ∀ (rows : List ProductRow) (m : List (String × String)),
      (lookupKey m l).isSome →
      (lookupKey (rows.foldl
        (fun m r =>
          match r.product_link with
          | some k => if k ∈ links then dictUpd m k r.id else m
          | none => m) m) l).isSome := by
  intro rows
  induction rows with
  | nil => intro m h; exact h
  | cons r rows ih =>
      intro m h
      rw [List.foldl_cons]
      apply ih
      cases hq : r.product_link with
      | some k =>
          simp only [hq]
          by_cases hin : k ∈ links
          · rw [if_pos hin, lookupKey_dictUpd]
            by_cases hlk : l = k
            · simp [hlk]
            · rw [if_neg hlk]; exact h
          · rw [if_neg hin]; exact h
      | none => simpa [hq] using h

theorem existingIdMap_isSome_aux (links : List String) (l : String) :
    ∀ (rows : List ProductRow) (m : List (String × String)) (row : ProductRow),
      row ∈ rows → row.product_link = some l → l ∈ links →
      (lookupKey (rows.foldl
        (fun m r =>
          match r.product_link with
          | some k => if k ∈ links then dictUpd m k r.id else m
          | none => m) m) l).isSome := by
  intro rows
  induction rows with
  | nil => intro m row h; cases h
  | cons r rows ih =>
      intro m row hrow hl hmem
      rw [List.foldl_cons]
      rcases List.mem_cons.mp hrow with h | h
      · subst h
        apply lookupKey_fold_isSome_preserved
        simp only [hl, if_pos hmem, lookupKey_dictUpd, if_pos rfl]
        rfl
      · exact ih _ row h hl hmem

theorem lookupKey_existingIdMap_isSome {rows : List ProductRow}
    {links : List String} {l : String} {row : ProductRow}
    (hrow : row ∈ rows) (hl : row.product_link = some l) (hmem : l ∈ links) :
    (lookupKey (existingIdMap rows links) l).isSome :=
  existingIdMap_isSome_aux links l rows [] row hrow hl hmem

theorem length_filterMap_of_isSome {α β : Type} (f : α → Option β) :
    ∀ l : List α, (∀ a ∈ l, (f a).isSome) →
      (l.filterMap f).length = l.length := by
  intro l
  induction l with
  | nil => intro _; rfl
  | cons a l ih =>
      intro h
      rcases Option.isSome_iff_exists.mp (h a (List.mem_cons_self ..)) with
        ⟨b, hb⟩
      rw [List.filterMap_cons, hb, List.length_cons,
        ih (fun x hx => h x (List.mem_cons_of_mem _ hx)), List.length_cons]

theorem markMissing_post (rows : List ProductRow) (sellerIds : List String)
    (jobId : String) (now : Nat) (links : List String) :
    ∀ r ∈ (markMissingAsRemoved rows sellerIds jobId now links).2,
      shouldRemove sellerIds links r = false := by
  intro r hr
  rcases List.mem_map.mp hr with ⟨r0, hr0, rfl⟩
  by_cases hs : shouldRemove sellerIds links r0 = true
  · rw [if_pos hs]
    simp [shouldRemove]
  · rw [if_neg hs]
    exact Bool.eq_false_iff.mpr hs

theorem markReappeared_post (rows : List ProductRow) (jobId : String)
    (links sellerIds : List String)
    (h : ∀ r ∈ rows, shouldRemove sellerIds links r = false) :
    ∀ r ∈ (markReappearedAsActive rows jobId links).2,
      shouldRemove sellerIds links r = false := by
  intro r hr
  rcases List.mem_map.mp hr with ⟨r0, hr0, rfl⟩
  by_cases hs : shouldReactivate links r0 = true
  · rw [if_pos hs]
    simp only [shouldReactivate] at hs
    cases hq : r0.product_link with
    | some l =>
        simp only [hq] at hs
        have hmem : l ∈ links := of_decide_eq_true (Bool.and_eq_true_iff.mp hs).1
        simp [shouldRemove, hq, hmem]
    | none => simp [hq] at hs
  · rw [if_neg hs]
    exact h r0 hr0

theorem filterMap_rawLink_eq (ps : List ProductRow)
    (h : ∀ p ∈ ps, (truthyLink p).isSome) :
    ps.filterMap (fun p => p.product_link) = ps.filterMap truthyLink := by
  induction ps with
  | nil => rfl
  | cons p ps ih =>
      rcases Option.isSome_iff_exists.mp (h p (List.mem_cons_self ..)) with
        ⟨l, hl⟩
      have hraw : p.product_link = some l := by
        cases hq : p.product_link with
        | none =>
            have : truthyLink p = none := by simp [truthyLink, truthyStr, hq]
            rw [this] at hl; cases hl
        | some k =>
            have hung : truthyLink p = if k = "" then none else some k := by
              simp [truthyLink, truthyStr, hq]
            rw [hung] at hl
            by_cases hk : k = ""
            · rw [if_pos hk] at hl; cases hl
            · rw [if_neg hk] at hl; exact hl
      rw [List.filterMap_cons, List.filterMap_cons, hraw, hl,
        ih (fun q hq2 => h q (List.mem_cons_of_mem _ hq2))]

theorem eq_of_nodup_links :
    ∀ {rows : List ProductRow} {r r' : ProductRow} {l : String},
      (rows.filterMap (fun x => x.product_link)).Nodup →
      r ∈ rows → r' ∈ rows → r.product_link = some l →
      r'.product_link = some l → r = r' := by
  intro rows
  induction rows with
  | nil => intro r r' l _ h; cases h
  | cons a rows ih =>
      intro r r' l hnd hr hr' hl hl'
      rw [List.filterMap_cons] at hnd
      rcases List.mem_cons.mp hr with h1 | h1 <;>
        rcases List.mem_cons.mp hr' with h2 | h2
      · rw [h1, h2]
      · subst h1
        simp only [hl] at hnd
        exact absurd (List.mem_filterMap.mpr ⟨r', h2, hl'⟩)
          (List.nodup_cons.mp hnd).1
      · subst h2
        simp only [hl'] at hnd
        exact absurd (List.mem_filterMap.mpr ⟨r, h1, hl⟩)
          (List.nodup_cons.mp hnd).1
      · refine ih ?_ h1 h2 hl hl'
        cases hq : a.product_link with
        | some k => simp only [hq] at hnd; exact (List.nodup_cons.mp hnd).2
        | none => simp only [hq] at hnd; exact hnd

theorem map_comp_of_pointwise {β : Type} (f : ProductRow → ProductRow)
    (g : ProductRow → β) (hf : ∀ r, g (f r) = g r) (rows : List ProductRow) :
    (rows.map f).map g = rows.map g := by
  rw [List.map_map]
  exact List.map_congr_left fun a _ => hf a

theorem links_applyUpdates (t rows : List ProductRow) :
    (applyUpdates t rows).map (fun r => r.product_link) =
      rows.map (fun r => r.product_link) := by
  apply map_comp_of_pointwise
  intro r
  cases ht : t.find? (fun u => u.id == r.id) <;> simp [ht, applyUpdate]

theorem ids_applyUpdates (t rows : List ProductRow) :
    (applyUpdates t rows).map (fun r => r.id) = rows.map (fun r => r.id) := by
  apply map_comp_of_pointwise
  intro r
  cases ht : t.find? (fun u => u.id == r.id) <;> simp [ht, applyUpdate]

theorem links_markMissing (rows : List ProductRow) (s : List String)
    (j : String) (n : Nat) (links : List String) :
    (markMissingAsRemoved rows s j n links).2.map (fun r => r.product_link) =
      rows.map (fun r => r.product_link) := by
  apply map_comp_of_pointwise
  intro r
  by_cases h : shouldRemove s links r = true <;> simp [h]

theorem ids_markMissing (rows : List ProductRow) (s : List String)
    (j : String) (n : Nat) (links : List String) :
    (markMissingAsRemoved rows s j n links).2.map (fun r => r.id) =
      rows.map (fun r => r.id) := by
  apply map_comp_of_pointwise
  intro r
  by_cases h : shouldRemove s links r = true <;> simp [h]

theorem links_markReappeared (rows : List ProductRow) (j : String)
    (links : List String) :
    (markReappearedAsActive rows j links).2.map (fun r => r.product_link) =
      rows.map (fun r => r.product_link) := by
  apply map_comp_of_pointwise
  intro r
  by_cases h : shouldReactivate links r = true <;> simp [h]

theorem ids_markReappeared (rows : List ProductRow) (j : String)
    (links : List String) :
    (markReappearedAsActive rows j links).2.map (fun r => r.id) =
      rows.map (fun r => r.id) := by
  apply map_comp_of_pointwise
  intro r
  by_cases h : shouldReactivate links r = true <;> simp [h]

theorem filterMap_congr_map {α β : Type} {g : α → Option β} {l l' : List α}
    (h : l.map g = l'.map g) : l.filterMap g = l'.filterMap g := by
  have e1 : l.filterMap g = (l.map g).filterMap id := by
    rw [List.filterMap_map]; rfl
  have e2 : l'.filterMap g = (l'.map g).filterMap id := by
    rw [List.filterMap_map]; rfl
  rw [e1, e2, h]

theorem db_import_products_cons_eq (store : Store) (p0 : ProductRow)
    (rest : List ProductRow) (now : Nat)
    (hlinked : ∀ p ∈ (p0 :: rest), (truthyLink p).isSome)
    (hnodupL : ((p0 :: rest).filterMap truthyLink).Nodup) :
    db_import_products store (p0 :: rest) now =
      (let B := (p0 :: rest).map (preprocess p0.scrape_job_id)
       let L := (p0 :: rest).filterMap truthyLink
       let SP := splitBatch (existingIdMap store.products L) B
       let MM := markMissingAsRemoved
         (applyUpdates SP.2 (store.products ++ SP.1))
         (B.map fun p => p.seller_id) p0.scrape_job_id now L
       let MR := markReappearedAsActive MM.2 p0.scrape_job_id L
       (⟨SP.1.length, SP.2.length, MM.1, MR.1⟩,
        { store with products := MR.2 })) := by
  have hlinkedB : ∀ p ∈ (p0 :: rest).map (preprocess p0.scrape_job_id),
      (truthyLink p).isSome := by
    intro p hp
    rcases List.mem_map.mp hp with ⟨q, hq, rfl⟩
    rw [truthyLink_preprocess]
    exact hlinked q hq
  have hLB : ((p0 :: rest).map (preprocess p0.scrape_job_id)).filterMap
      truthyLink = (p0 :: rest).filterMap truthyLink :=
    obsLinks_preprocess _ _
  have hnodupLB : (((p0 :: rest).map
      (preprocess p0.scrape_job_id)).filterMap truthyLink).Nodup := by
    rw [hLB]; exact hnodupL
  have hU : dedupByLink ((p0 :: rest).map (preprocess p0.scrape_job_id)) =
      (p0 :: rest).map (preprocess p0.scrape_job_id) :=
    dedupByLink_eq_self _ hlinkedB hnodupLB
  have hraw : linksOf ((p0 :: rest).map (preprocess p0.scrape_job_id)) =
      (p0 :: rest).filterMap truthyLink := by
    show ((p0 :: rest).map (preprocess p0.scrape_job_id)).filterMap
        (fun p => p.product_link) = _
    rw [filterMap_rawLink_eq _ hlinkedB, hLB]
  have hNoUnlinked : ((p0 :: rest).map (preprocess p0.scrape_job_id)).filter
      (fun p => (truthyLink p).isNone) = [] := by
    rw [List.filter_eq_nil_iff]
    intro a ha
    simp [Option.isNone_iff_eq_none, Option.isSome_iff_ne_none.mp
      (hlinkedB a ha)]
  rcases Option.isSome_iff_exists.mp (hlinked p0 (List.mem_cons_self ..)) with
    ⟨l0, hl0⟩
  have hLe : ((p0 :: rest).filterMap truthyLink).isEmpty = false := by
    rw [List.filterMap_cons, hl0]
    rfl
  have hSe : (((p0 :: rest).map (preprocess p0.scrape_job_id)).map
      (fun p => p.seller_id)).isEmpty = false := by
    rw [List.map_cons, List.map_cons]
    rfl
  simp only [db_import_products, hU, hraw, hNoUnlinked, List.append_nil, hLB,
    hSe, hLe, Bool.not_false, Bool.and_self, if_true]

theorem truthyLink_eq_raw {p : ProductRow} {a : String}
    (h : (truthyLink p).isSome) (hr : p.product_link = some a) :
    truthyLink p = some a := by
  have he : truthyLink p = if a = "" then none else some a := by
    simp [truthyLink, truthyStr, hr]
  rw [he] at h ⊢
  by_cases ha : a = ""
  · rw [if_pos ha] at h; cases h
  · rw [if_neg ha]

theorem raw_of_truthyLink {p : ProductRow} {l : String}
    (h : truthyLink p = some l) : p.product_link = some l := by
  cases hq : p.product_link with
  | none => simp [truthyLink, truthyStr, hq] at h
  | some k =>
      have he : truthyLink p = if k = "" then none else some k := by
        simp [truthyLink, truthyStr, hq]
      rw [he] at h
      by_cases hk : k = ""
      · rw [if_pos hk] at h; cases h
      · rw [if_neg hk] at h
        exact h

theorem db_import_products_cons_products (store : Store) (p0 : ProductRow)
    (rest : List ProductRow) (now : Nat)
    (hlinked : ∀ p ∈ (p0 :: rest), (truthyLink p).isSome)
    (hnodupL : ((p0 :: rest).filterMap truthyLink).Nodup) :
    (db_import_products store (p0 :: rest) now).2.products =
      (markReappearedAsActive
        (markMissingAsRemoved
          (applyUpdates
            (splitBatch
              (existingIdMap store.products ((p0 :: rest).filterMap truthyLink))
              ((p0 :: rest).map (preprocess p0.scrape_job_id))).2
            (store.products ++
              (splitBatch
                (existingIdMap store.products
                  ((p0 :: rest).filterMap truthyLink))
                ((p0 :: rest).map (preprocess p0.scrape_job_id))).1))
          (((p0 :: rest).map (preprocess p0.scrape_job_id)).map
            fun p => p.seller_id)
          p0.scrape_job_id now ((p0 :: rest).filterMap truthyLink)).2
        p0.scrape_job_id ((p0 :: rest).filterMap truthyLink)).2 := by
  rw [db_import_products_cons_eq store p0 rest now hlinked hnodupL]

theorem db_import_products_cons_counts (store : Store) (p0 : ProductRow)
    (rest : List ProductRow) (now : Nat)
    (hlinked : ∀ p ∈ (p0 :: rest), (truthyLink p).isSome)
    (hnodupL : ((p0 :: rest).filterMap truthyLink).Nodup) :
    (db_import_products store (p0 :: rest) now).1 =
      ⟨(splitBatch
          (existingIdMap store.products ((p0 :: rest).filterMap truthyLink))
          ((p0 :: rest).map (preprocess p0.scrape_job_id))).1.length,
        (splitBatch
          (existingIdMap store.products ((p0 :: rest).filterMap truthyLink))
          ((p0 :: rest).map (preprocess p0.scrape_job_id))).2.length,
        (markMissingAsRemoved
          (applyUpdates
            (splitBatch
              (existingIdMap store.products ((p0 :: rest).filterMap truthyLink))
              ((p0 :: rest).map (preprocess p0.scrape_job_id))).2
            (store.products ++
              (splitBatch
                (existingIdMap store.products
                  ((p0 :: rest).filterMap truthyLink))
                ((p0 :: rest).map (preprocess p0.scrape_job_id))).1))
          (((p0 :: rest).map (preprocess p0.scrape_job_id)).map
            fun p => p.seller_id)
          p0.scrape_job_id now ((p0 :: rest).filterMap truthyLink)).1,
        (markReappearedAsActive
          (markMissingAsRemoved
            (applyUpdates
              (splitBatch
                (existingIdMap store.products
                  ((p0 :: rest).filterMap truthyLink))
                ((p0 :: rest).map (preprocess p0.scrape_job_id))).2
              (store.products ++
                (splitBatch
                  (existingIdMap store.products
                    ((p0 :: rest).filterMap truthyLink))
                  ((p0 :: rest).map (preprocess p0.scrape_job_id))).1))
            (((p0 :: rest).map (preprocess p0.scrape_job_id)).map
              fun p => p.seller_id)
            p0.scrape_job_id now ((p0 :: rest).filterMap truthyLink)).2
          p0.scrape_job_id ((p0 :: rest).filterMap truthyLink)).1⟩ := by
  rw [db_import_products_cons_eq store p0 rest now hlinked hnodupL]

theorem exists_link_in_maps (f1 f2 f3 : ProductRow → ProductRow)
    (h1 : ∀ r, (f1 r).product_link = r.product_link)
    (h2 : ∀ r, (f2 r).product_link = r.product_link)
    (h3 : ∀ r, (f3 r).product_link = r.product_link)
    (rows : List ProductRow) (l : String) (row : ProductRow)
    (hrow : row ∈ rows) (hl : row.product_link = some l) :
    ∃ row2 ∈ ((rows.map f1).map f2).map f3, row2.product_link = some l := by
  refine ⟨f3 (f2 (f1 row)), List.mem_map_of_mem _
    (List.mem_map_of_mem _ (List.mem_map_of_mem _ hrow)), ?_⟩
  rw [h3, h2, h1, hl]

theorem db_import_products_first_pass_post (store : Store) (p0 : ProductRow)
    (rest : List ProductRow) (now : Nat)
    (hlinked : ∀ p ∈ (p0 :: rest), (truthyLink p).isSome)
    (hnodupL : ((p0 :: rest).filterMap truthyLink).Nodup)
    (hids : ((store.products ++ (p0 :: rest)).map (fun r => r.id)).Nodup)
    (hstoreL : (store.products.filterMap (fun r => r.product_link)).Nodup) :
    (((db_import_products store (p0 :: rest) now).2.products.map
        (fun r => r.id)).Nodup) ∧
    (((db_import_products store (p0 :: rest) now).2.products.filterMap
        (fun r => r.product_link)).Nodup) ∧
    (∀ l ∈ (p0 :: rest).filterMap truthyLink,
      ∃ row ∈ (db_import_products store (p0 :: rest) now).2.products,
        row.product_link = some l) ∧
    (∀ r ∈ (db_import_products store (p0 :: rest) now).2.products,
      shouldRemove ((p0 :: rest).map (fun p => p.seller_id))
        ((p0 :: rest).filterMap truthyLink) r = false) := by
  rw [db_import_products_cons_products store p0 rest now hlinked hnodupL]
  set B := (p0 :: rest).map (preprocess p0.scrape_job_id) with hB
  set L := (p0 :: rest).filterMap truthyLink with hL
  set EX := existingIdMap store.products L with hEX
  set SP := splitBatch EX B with hSP
  set X := store.products ++ SP.1 with hX
  set MID := applyUpdates SP.2 X with hMID
  set MM := markMissingAsRemoved MID (B.map fun p => p.seller_id)
    p0.scrape_job_id now L with hMM
  have hlinkedB : ∀ p ∈ B, (truthyLink p).isSome := by
    intro p hp
    rw [hB] at hp
    rcases List.mem_map.mp hp with ⟨q, hq, rfl⟩
    rw [truthyLink_preprocess]
    exact hlinked q hq
  have hLB : B.filterMap truthyLink = L := by
    rw [hB, hL]
    exact obsLinks_preprocess _ _
  have hrawB : B.filterMap (fun p => p.product_link) = L := by
    rw [filterMap_rawLink_eq _ hlinkedB, hLB]
  have hidsB : B.map (fun r => r.id) = (p0 :: rest).map (fun r => r.id) := by
    rw [hB]
    exact map_comp_of_pointwise (preprocess p0.scrape_job_id)
      (fun r => r.id) (fun r => rfl) (p0 :: rest)
  have hSPeq : SP =
      (B.filter fun p =>
        (match p.product_link with
         | some k => (lookupKey EX k).isNone
         | none => true : Bool),
       B.filterMap fun p =>
        match p.product_link with
        | some k => (lookupKey EX k).map (fun j => { p with id := j })
        | none => none) := by
    rw [hSP]
    exact splitBatch_eq EX B
  have hSP1eq : SP.1 = B.filter fun p =>
      (match p.product_link with
       | some k => (lookupKey EX k).isNone
       | none => true : Bool) := by
    rw [hSPeq]
  have hSP1sub : List.Sublist SP.1 B := by
    rw [hSP1eq]
    exact List.filter_sublist B
  have hidX : (markReappearedAsActive MM.2 p0.scrape_job_id L).2.map
      (fun r => r.id) = X.map (fun r => r.id) := by
    rw [ids_markReappeared, hMM, ids_markMissing, hMID, ids_applyUpdates]
  have hlinkX : (markReappearedAsActive MM.2 p0.scrape_job_id L).2.map
      (fun r => r.product_link) = X.map (fun r => r.product_link) := by
    rw [links_markReappeared, hMM, links_markMissing, hMID, links_applyUpdates]
  have hform : (markReappearedAsActive MM.2 p0.scrape_job_id L).2 =
      ((X.map fun r =>
          match SP.2.find? (fun u => u.id == r.id) with
          | some u => applyUpdate r u
          | none => r).map fun r =>
        if shouldRemove (B.map fun p => p.seller_id) L r then
          { r with is_removed := true, removed_at := some now }
        else r).map fun r =>
        if shouldReactivate L r then
          { r with is_removed := false, removed_at := none }
        else r := by
    rw [hMM, hMID]
    rfl
  refine ⟨?_, ?_, ?_, ?_⟩
  · rw [hidX, hX, List.map_append]
    refine List.Nodup.sublist
      (List.Sublist.append_left (List.Sublist.map _ hSP1sub) _) ?_
    rw [hidsB, ← List.map_append]
    exact hids
  · rw [filterMap_congr_map hlinkX, hX, List.filterMap_append,
      List.nodup_append]
    refine ⟨hstoreL, ?_, ?_⟩
    · refine List.Nodup.sublist (List.Sublist.filterMap _ hSP1sub) ?_
      rw [hrawB, hL]
      exact hnodupL
    · intro a ha1 ha2
      rcases List.mem_filterMap.mp ha2 with ⟨p, hpSP1, hpa⟩
      have hpfilter := hpSP1
      rw [hSP1eq] at hpfilter
      rcases List.mem_filter.mp hpfilter with ⟨hpB, hpred⟩
      have hpred2 : (lookupKey EX a).isNone = true := by
        simpa [hpa] using hpred
      have haL : a ∈ L := by
        rw [← hrawB]
        exact List.mem_filterMap.mpr ⟨p, hpB, hpa⟩
      rcases List.mem_filterMap.mp ha1 with ⟨row, hrowS, hrowa⟩
      have hsome : (lookupKey (existingIdMap store.products L) a).isSome :=
        lookupKey_existingIdMap_isSome hrowS hrowa haL
      rw [← hEX] at hsome
      cases hcase : lookupKey EX a with
      | some v => rw [hcase] at hpred2; simp at hpred2
      | none => rw [hcase] at hsome; simp at hsome
  · intro l hlL
    have hlB : l ∈ B.filterMap truthyLink := by
      rw [hLB]
      exact hlL
    rcases List.mem_filterMap.mp hlB with ⟨p, hpB, hpt⟩
    have hpraw : p.product_link = some l := raw_of_truthyLink hpt
    have hrowX : ∃ row ∈ X, row.product_link = some l := by
      cases hcase : lookupKey EX l with
      | some i =>
          rw [hEX] at hcase
          rcases lookupKey_existingIdMap_some hcase with
            ⟨row, hrowS, hrowl, _, _⟩
          exact ⟨row, by rw [hX]; exact List.mem_append_left _ hrowS, hrowl⟩
      | none =>
          refine ⟨p, ?_, hpraw⟩
          rw [hX]
          apply List.mem_append_right
          rw [hSP1eq]
          refine List.mem_filter.mpr ⟨hpB, ?_⟩
          simp [hpraw, hcase]
    rcases hrowX with ⟨row, hrowXm, hrowl⟩
    rw [hform]
    exact exists_link_in_maps _ _ _
      (fun r => (applyUpdates_row_frame SP.2 r).2.2)
      (fun r => (removeRow_frame (B.map fun p => p.seller_id) L now r).2.2)
      (fun r => (reactivateRow_frame L r).2.2)
      X l row hrowXm hrowl
  · intro r hr
    have h1 := markMissing_post MID (B.map fun p => p.seller_id)
      p0.scrape_job_id now L
    have h2 := markReappeared_post MM.2 p0.scrape_job_id L
      (B.map fun p => p.seller_id) (by rw [hMM]; exact h1)
    have h3 := h2 r hr
    have hsid : B.map (fun p => p.seller_id) =
        (p0 :: rest).map (fun p => p.seller_id) := by
      rw [hB]
      exact map_comp_of_pointwise (preprocess p0.scrape_job_id)
        (fun p => p.seller_id) (fun r => rfl) (p0 :: rest)
    rw [← hsid]
    exact h3

theorem db_import_products_second_pass (store1 : Store) (p0 : ProductRow)
    (rest : List ProductRow) (now : Nat)
    (hlinked : ∀ p ∈ (p0 :: rest), (truthyLink p).isSome)
    (hnodupL : ((p0 :: rest).filterMap truthyLink).Nodup)
    (hact : ∀ p ∈ (p0 :: rest), p.is_removed = false)
    (hids1 : (store1.products.map (fun r => r.id)).Nodup)
    (hlinks1 : (store1.products.filterMap (fun r => r.product_link)).Nodup)
    (hcover : ∀ l ∈ (p0 :: rest).filterMap truthyLink,
      ∃ row ∈ store1.products, row.product_link = some l)
    (hQ : ∀ r ∈ store1.products,
      shouldRemove ((p0 :: rest).map (fun p => p.seller_id))
        ((p0 :: rest).filterMap truthyLink) r = false) :
    (db_import_products store1 (p0 :: rest) now).1 =
      ⟨0, (p0 :: rest).length, 0, 0⟩ := by
  rw [db_import_products_cons_counts store1 p0 rest now hlinked hnodupL]
  set B := (p0 :: rest).map (preprocess p0.scrape_job_id) with hB
  set L := (p0 :: rest).filterMap truthyLink with hL
  set EX := existingIdMap store1.products L with hEX
  set SP := splitBatch EX B with hSP
  have hlinkedB : ∀ p ∈ B, (truthyLink p).isSome := by
    intro p hp
    rw [hB] at hp
    rcases List.mem_map.mp hp with ⟨q, hq, rfl⟩
    rw [truthyLink_preprocess]
    exact hlinked q hq
  have hactB : ∀ p ∈ B, p.is_removed = false := by
    intro p hp
    rw [hB] at hp
    rcases List.mem_map.mp hp with ⟨q, hq, rfl⟩
    exact hact q hq
  have hLB : B.filterMap truthyLink = L := by
    rw [hB, hL]
    exact obsLinks_preprocess _ _
  have hsidB : B.map (fun p => p.seller_id) =
      (p0 :: rest).map (fun p => p.seller_id) := by
    rw [hB]
    exact map_comp_of_pointwise (preprocess p0.scrape_job_id)
      (fun p => p.seller_id) (fun r => rfl) (p0 :: rest)
  have hQ2 : ∀ r ∈ store1.products,
      shouldRemove (B.map fun p => p.seller_id) L r = false := by
    rw [hsidB]
    exact hQ
  have hSPeq : SP =
      (B.filter fun p =>
        (match p.product_link with
         | some k => (lookupKey EX k).isNone
         | none => true : Bool),
       B.filterMap fun p =>
        match p.product_link with
        | some k => (lookupKey EX k).map (fun j => { p with id := j })
        | none => none) := by
    rw [hSP]
    exact splitBatch_eq EX B
  have hSP1eq : SP.1 = B.filter fun p =>
      (match p.product_link with
       | some k => (lookupKey EX k).isNone
       | none => true : Bool) := by
    rw [hSPeq]
  have hSP2eq : SP.2 = B.filterMap fun p =>
      match p.product_link with
      | some k => (lookupKey EX k).map (fun j => { p with id := j })
      | none => none := by
    rw [hSPeq]
  have hlookup : ∀ p ∈ B, ∃ l, p.product_link = some l ∧ l ∈ L ∧
      (lookupKey EX l).isSome := by
    intro p hp
    rcases Option.isSome_iff_exists.mp (hlinkedB p hp) with ⟨l, hpt⟩
    have hpraw : p.product_link = some l := raw_of_truthyLink hpt
    have hlL : l ∈ L := by
      rw [← hLB]
      exact List.mem_filterMap.mpr ⟨p, hp, hpt⟩
    rcases hcover l hlL with ⟨row, hrowm, hrowl⟩
    refine ⟨l, hpraw, hlL, ?_⟩
    rw [hEX]
    exact lookupKey_existingIdMap_isSome hrowm hrowl hlL
  have hSP1nil : SP.1 = [] := by
    rw [hSP1eq, List.filter_eq_nil_iff]
    intro p hp
    rcases hlookup p hp with ⟨l, hpl, _, hsome⟩
    rcases Option.isSome_iff_exists.mp hsome with ⟨v, hv⟩
    simp [hpl, hv]
  have hSP2len : SP.2.length = (p0 :: rest).length := by
    rw [hSP2eq, length_filterMap_of_isSome]
    · rw [hB, List.length_map]
    · intro p hp
      rcases hlookup p hp with ⟨l, hpl, _, hsome⟩
      rcases Option.isSome_iff_exists.mp hsome with ⟨v, hv⟩
      simp [hpl, hv]
  -- every update-path entry is an (id-replaced) batch row, hence active
  have hSP2elim : ∀ u ∈ SP.2, ∃ p l j, p ∈ B ∧ p.product_link = some l ∧
      lookupKey EX l = some j ∧ u = { p with id := j } := by
    intro u hu
    rw [hSP2eq] at hu
    rcases List.mem_filterMap.mp hu with ⟨p, hpB, hfp⟩
    split at hfp
    · rename_i x k heq
      rcases Option.map_eq_some'.mp hfp with ⟨j, hj, hju⟩
      exact ⟨p, k, j, hpB, heq, hj, hju.symm⟩
    · cases hfp
  -- a store row whose link is an observed link is matched by the update batch
  have hmatched : ∀ r1 ∈ store1.products, ∀ l, r1.product_link = some l →
      l ∈ L → ∃ u ∈ SP.2, u.id = r1.id := by
    intro r1 hr1 l hl1 hlL
    have hsome : (lookupKey EX l).isSome := by
      rw [hEX]
      exact lookupKey_existingIdMap_isSome hr1 hl1 hlL
    rcases Option.isSome_iff_exists.mp hsome with ⟨j, hj⟩
    have hjEX := hj
    rw [hEX] at hjEX
    rcases lookupKey_existingIdMap_some hjEX with
      ⟨row, hrowm, hrowl, hrowid, _⟩
    have hrow_r1 : row = r1 := eq_of_nodup_links hlinks1 hrowm hr1 hrowl hl1
    have hjid : j = r1.id := by rw [← hrowid, hrow_r1]
    have hlB2 : l ∈ B.filterMap truthyLink := by rw [hLB]; exact hlL
    rcases List.mem_filterMap.mp hlB2 with ⟨p, hpB, hpt⟩
    have hpraw : p.product_link = some l := raw_of_truthyLink hpt
    refine ⟨{ p with id := j }, ?_, hjid⟩
    rw [hSP2eq]
    refine List.mem_filterMap.mpr ⟨p, hpB, ?_⟩
    simp [hpraw, hj]
  -- characterize each row of the post-update table
  have hMID : ∀ r ∈ applyUpdates SP.2 store1.products,
      shouldRemove (B.map fun p => p.seller_id) L r = false ∧
      shouldReactivate L r = false := by
    intro r hr
    simp only [applyUpdates] at hr
    rcases List.mem_map.mp hr with ⟨r1, hr1, rfl⟩
    cases hfind : SP.2.find? (fun u => u.id == r1.id) with
    | none =>
        simp only [hfind]
        constructor
        · exact hQ2 r1 hr1
        · -- r1's link cannot be an observed link, else it would be matched
          cases hq : r1.product_link with
          | none => simp [shouldReactivate, hq]
          | some l =>
              by_cases hlL : l ∈ L
              · rcases hmatched r1 hr1 l hq hlL with ⟨u, hu, huid⟩
                have := List.find?_eq_none.mp hfind u hu
                exact absurd (beq_iff_eq.mpr huid) this
              · simp [shouldReactivate, hq, hlL]
    | some u =>
        simp only [hfind]
        have humem : u ∈ SP.2 := List.mem_of_find?_eq_some hfind
        rcases hSP2elim u humem with ⟨p, l, j, hpB, hpl, hj, hueq⟩
        have hup := List.find?_some hfind
        have huid : u.id = r1.id := beq_iff_eq.mp hup
        -- the updated row keeps r1's link, which is the observed link l
        have hjEX := hj
        rw [hEX] at hjEX
        rcases lookupKey_existingIdMap_some hjEX with
          ⟨row, hrowm, hrowl, hrowid, hlinL⟩
        have hrid : row.id = r1.id := by
          rw [hrowid, ← huid, hueq]
        have hrow_r1 : row = r1 := List.inj_on_of_nodup_map hids1 hrowm hr1 hrid
        have hl1 : r1.product_link = some l := by rw [← hrow_r1]; exact hrowl
        have hlink2 : (applyUpdate r1 u).product_link = some l := hl1
        have hured : (applyUpdate r1 u).is_removed = false := by
          show u.is_removed = false
          rw [hueq]
          exact hactB p hpB
        constructor
        · simp [shouldRemove, hlink2, hlinL]
        · simp [shouldReactivate, hlink2, hured]
  simp only [ImportCounts.mk.injEq]
  refine ⟨?_, ?_, ?_, ?_⟩
  · rw [hSP1nil]; rfl
  · exact hSP2len
  · rw [hSP1nil, List.append_nil]
    simp only [markMissingAsRemoved]
    rw [List.countP_eq_zero]
    intro r hr
    rw [(hMID r hr).1]
    simp
  · rw [hSP1nil, List.append_nil]
    simp only [markMissingAsRemoved, markReappearedAsActive]
    rw [List.countP_eq_zero]
    intro r hr
    rcases List.mem_map.mp hr with ⟨r2, hr2, rfl⟩
    have hq2 := hMID r2 hr2
    rw [if_neg (by rw [hq2.1]; exact Bool.false_ne_true)]
    rw [hq2.2]
    simp

/-! ### C6 -/

/-- C6 counterexample: reconciling the identical snapshot twice does not
give `(0, N, 0, 0)` on the second pass for every snapshot.  A snapshot
with one unlinked product and a duplicated link (N = 3), imported twice
into an empty store, reports `(1, 1, 1, 0)` on the second pass: the
unlinked product is re-inserted (inserted = 1 ≠ 0) and the duplicate
links collapse (updated = 1 ≠ 3). -/
theorem C6_second_pass_counts_differ :
    (db_import_products
      (db_import_products ⟨[], [], []⟩
        [⟨"p1", "S", "J", "t1", "p", "d", [], none, false, 0, none, "J",
          false, none, ⟨"cu", "sn", "sc", "ct", none, none⟩, 1, 1⟩,
         ⟨"p2", "S", "J", "t2", "p", "d", [], some "L", false, 0, none, "J",
          false, none, ⟨"cu", "sn", "sc", "ct", none, none⟩, 1, 1⟩,
         ⟨"p3", "S", "J", "t3", "p", "d", [], some "L", false, 0, none, "J",
          false, none, ⟨"cu", "sn", "sc", "ct", none, none⟩, 1, 1⟩] 1).2
      [⟨"p1", "S", "J", "t1", "p", "d", [], none, false, 0, none, "J",
        false, none, ⟨"cu", "sn", "sc", "ct", none, none⟩, 1, 1⟩,
       ⟨"p2", "S", "J", "t2", "p", "d", [], some "L", false, 0, none, "J",
        false, none, ⟨"cu", "sn", "sc", "ct", none, none⟩, 1, 1⟩,
       ⟨"p3", "S", "J", "t3", "p", "d", [], some "L", false, 0, none, "J",
        false, none, ⟨"cu", "sn", "sc", "ct", none, none⟩, 1, 1⟩] 2).1 =
      ⟨1, 1, 1, 0⟩ ∧
    (⟨1, 1, 1, 0⟩ : ImportCounts) ≠ ⟨0, 3, 0, 0⟩ := by decide

/-- C6 amended: reconciling the identical snapshot twice in a row yields
`(0, N, 0, 0)` on the second pass — N the snapshot's product count —
provided the snapshot is well-formed: every product carries a truthy
product link, the links are pairwise distinct, every product is active
(`is_removed=false`, as the snapshot builder produces), the row ids of the
store and the batch are jointly distinct, and the store's links are
distinct (the products table's key invariants). -/
theorem C6_idempotent_rerun_for_linked_snapshots (store : Store)
    (batch : List ProductRow) (now1 now2 : Nat)
    (hne : batch ≠ [])
    (hlinked : ∀ p ∈ batch, (truthyLink p).isSome)
    (hnodupL : (batch.filterMap truthyLink).Nodup)
    (hact : ∀ p ∈ batch, p.is_removed = false)
    (hids : ((store.products ++ batch).map (fun r => r.id)).Nodup)
    (hstoreL : (store.products.filterMap (fun r => r.product_link)).Nodup) :
    (db_import_products (db_import_products store batch now1).2 batch now2).1 =
      ⟨0, batch.length, 0, 0⟩ := by
  cases batch with
  | nil => exact absurd rfl hne
  | cons p0 rest =>
      obtain ⟨h1, h2, h3, h4⟩ := db_import_products_first_pass_post store p0
        rest now1 hlinked hnodupL hids hstoreL
      exact db_import_products_second_pass _ p0 rest now2 hlinked hnodupL
        hact h1 h2 h3 h4

/-- Witness for C6: a two-product all-linked snapshot re-imported over a
concrete non-empty store reports `(0, 2, 0, 0)` on the second pass. -/
theorem C6_witness :
    (db_import_products
      (db_import_products
        ⟨[], [],
         [⟨"A", "S", "J0", "tA", "p", "d", [], some "pa", false, 0, none,
           "J0", false, none, ⟨"cu", "sn", "sc", "ct", none, none⟩, 1, 1⟩]⟩
        [⟨"q1", "S", "J", "t1", "p", "d", [], some "x1", false, 0, none, "J",
          false, none, ⟨"cu", "sn", "sc", "ct", none, none⟩, 1, 1⟩,
         ⟨"q2", "S", "J", "t2", "p", "d", [], some "x2", false, 0, none, "J",
          false, none, ⟨"cu", "sn", "sc", "ct", none, none⟩, 1, 1⟩] 1).2
      [⟨"q1", "S", "J", "t1", "p", "d", [], some "x1", false, 0, none, "J",
        false, none, ⟨"cu", "sn", "sc", "ct", none, none⟩, 1, 1⟩,
       ⟨"q2", "S", "J", "t2", "p", "d", [], some "x2", false, 0, none, "J",
        false, none, ⟨"cu", "sn", "sc", "ct", none, none⟩, 1, 1⟩] 2).1 =
      ⟨0, 2, 0, 0⟩ :=
  C6_idempotent_rerun_for_linked_snapshots _ _ 1 2 (by decide) (by decide)
    (by decide) (by decide) (by decide) (by decide)
